import Mathlib

/-!
SimpleVector: a verification development of `vector.h`

The header defines `RawMemory<T>` (an owned block of raw slots) and `Vector<T>`
(a `RawMemory<T>` plus the count `size_` of live elements).

Embedding.
* A block is a list of slots, `List (Option T)`: `some x` is a live element `x`,
  `none` is raw (never constructed, or destroyed) memory.
* `size_t` values are natural numbers; every `size_t` computation of the source
  (`size_ * 2`, `++size_`, `--size_`, `i + 1`, `size_ - 1`) is taken modulo `2 ^ 64`.
* A position (`T*`, `iterator`, `const_iterator`) is its offset from the first
  slot of the block it points into, so `data_.begin()` is offset `0`.
* The library algorithms of `<memory>` and `<algorithm>` used by the header are
  given by their slot-by-slot loops.
* A read of a slot outside the block yields `none`; a write outside the block
  is dropped.  Both are undefined behaviour in C++ and are excluded by the
  hypotheses of the theorems.
* An argument passed by reference (`const T&`, `T&&`, `Args&&...`) is a `Ref` or
  an `Args`: it is read when the code reads it, and it may refer to an element
  of the vector itself.  A released block has no slot left, so a read through a
  reference into it yields `none`: no determinate element.
-/

namespace SimpleVector

/-! ## 64-bit `size_t` arithmetic -/

/-- The number of values of `size_t` (64 bits). -/
def SIZE_RANGE : Nat := 2 ^ 64

/-- The sum `a + b` computed in `size_t`. -/
def size_add (a b : Nat) : Nat := (a + b) % SIZE_RANGE

/-- The difference `a - b` computed in `size_t` (wraps around below zero). -/
def size_sub (a b : Nat) : Nat := ((SIZE_RANGE - b % SIZE_RANGE) + a) % SIZE_RANGE

/-- The product `a * b` computed in `size_t`. -/
def size_mul (a b : Nat) : Nat := (a * b) % SIZE_RANGE

/-! ## Library algorithms on a block of slots -/

/-- The loop `std::uninitialized_value_construct_n(p + first, n)`: value-construct
`n` elements in the slots `first, first + 1, ...`. -/
def uninitialized_value_construct_n {T : Type} [Inhabited T] :
    List (Option T) → Nat → Nat → List (Option T)
  | mem, _, 0 => mem
  | mem, first, n + 1 =>
    uninitialized_value_construct_n (mem.set first (some default)) (first + 1) n

/-- The loop `std::uninitialized_copy_n(src + first, n, dst + d_first)`: construct
`dst[d_first + k]` from `src[first + k]` for `k = 0, ..., n - 1`. -/
def uninitialized_copy_n {T : Type} (src : List (Option T)) :
    Nat → Nat → List (Option T) → Nat → List (Option T)
  | _, 0, dst, _ => dst
  | first, n + 1, dst, d_first =>
    uninitialized_copy_n src (first + 1) n (dst.set d_first (src.getD first none)) (d_first + 1)

/-- The loop `std::uninitialized_move_n(src + first, n, dst + d_first)`: construct
`dst[d_first + k]` from the (moved) value of `src[first + k]`. -/
def uninitialized_move_n {T : Type} (src : List (Option T)) :
    Nat → Nat → List (Option T) → Nat → List (Option T)
  | _, 0, dst, _ => dst
  | first, n + 1, dst, d_first =>
    uninitialized_move_n src (first + 1) n (dst.set d_first (src.getD first none)) (d_first + 1)

/-- The loop `std::destroy_n(p + first, n)`: end the lifetime of the elements in
the slots `first, ..., first + n - 1`. -/
def destroy_n {T : Type} : List (Option T) → Nat → Nat → List (Option T)
  | mem, _, 0 => mem
  | mem, first, n + 1 => destroy_n (mem.set first none) (first + 1) n

/-- The call `std::destroy_at(p + pos)`. -/
def destroy_at {T : Type} (mem : List (Option T)) (pos : Nat) : List (Option T) :=
  mem.set pos none

/-- The algorithm `std::move(p + first, p + first + n, p + d_first)` inside one
block: `p[d_first + k] = std::move(p[first + k])` for `k = 0, ..., n - 1`, in
this order, each read seeing the writes made before it. -/
def move_range {T : Type} : List (Option T) → Nat → Nat → Nat → List (Option T)
  | mem, _, 0, _ => mem
  | mem, first, n + 1, d_first =>
    move_range (mem.set d_first (mem.getD first none)) (first + 1) n (d_first + 1)

/-- The algorithm `std::rotate(p + first, p + middle, p + last)`: the slots
`[middle, last)` come first, followed by the slots `[first, middle)`. -/
def rotate {T : Type} (mem : List (Option T)) (first middle last : Nat) : List (Option T) :=
  mem.take first ++ ((mem.drop middle).take (last - middle) ++
    ((mem.drop first).take (middle - first) ++ mem.drop last))

/-! ## Arguments passed by reference -/

/-- An argument bound to a parameter `const T&` or `T&&`: it refers either to an
object outside the storage of the vector, of value `x`, or to the element in the
slot `j` of the block that the vector owns when the call is made. -/
inductive Ref (T : Type) where
  | outside (x : T) : Ref T
  | own (j : Nat) : Ref T

/-- The value read through a reference, where `block` is what the block owned at
the time of the call holds at the time of the read. -/
def Ref.read {T : Type} (r : Ref T) (block : List (Option T)) : Option T :=
  match r with
  | Ref.outside x => some x
  | Ref.own j => block.getD j none

/-- An argument pack `Args&&... args` of `emplaceBack` and `emplace`: a pack `a` of
objects outside the storage of the vector, or the pack `f x` built on a reference
to the element `x` in the slot `j` of the block that the vector owns when the
call is made. -/
inductive Args (T A : Type) where
  | outside (a : A) : Args T A
  | own (j : Nat) (f : T → A) : Args T A

/-- The pack read through its references, where `block` is what the block owned
at the time of the call holds at the time of the read. -/
def Args.read {T A : Type} (p : Args T A) (block : List (Option T)) : Option A :=
  match p with
  | Args.outside a => some a
  | Args.own j f => (block.getD j none).map f

/-! ## `RawMemory<T>` -/

/-- The class `RawMemory<T>`: the block `memory_` and the slot count `capacity_`.
The default member initialisers give the null block and capacity `0`. -/
structure RawMemory (T : Type) where
  memory_ : List (Option T) := []
  capacity_ : Nat := 0

namespace RawMemory

/-- The static member `allocate(n)`: a fresh block of `n` raw slots. -/
def allocate {T : Type} (n : Nat) : List (Option T) := List.replicate n none

/-- The static member `deallocate(buf)`, called by the destructor: the block is
released and no slot of it is left. -/
def deallocate {T : Type} (_buf : List (Option T)) : List (Option T) := []

/-- The constructor `RawMemory(size_t n)`. -/
def ctor_n {T : Type} (n : Nat) : RawMemory T :=
  { memory_ := allocate n, capacity_ := n }

/-- The member `swap(other)`; the result is `(*this, other)` after the call. -/
def swap {T : Type} (self other : RawMemory T) : RawMemory T × RawMemory T :=
  ({ memory_ := other.memory_, capacity_ := other.capacity_ },
   { memory_ := self.memory_, capacity_ := self.capacity_ })

/-- The move constructor `RawMemory(RawMemory&& other)`; the result is
`(*this, other)` after the call. -/
def ctor_move {T : Type} (other : RawMemory T) : RawMemory T × RawMemory T :=
  swap {} other

/-- The move assignment `operator=(RawMemory&& other)`; the result is
`(*this, other)` after the call. -/
def move_assign {T : Type} (self other : RawMemory T) : RawMemory T × RawMemory T :=
  swap self other

/-- The member `operator[](i)`: the content of slot `i`. -/
def index {T : Type} (self : RawMemory T) (i : Nat) : Option T :=
  self.memory_.getD i none

/-- The member `begin()`: the position of the first slot. -/
def begin {T : Type} (_self : RawMemory T) : Nat := 0

/-- The member `capacity()`. -/
def capacity {T : Type} (self : RawMemory T) : Nat := self.capacity_

end RawMemory

/-! ## `Vector<T>` -/

/-- The class `Vector<T>`: the storage `data_` and the element count `size_`. -/
structure Vector (T : Type) where
  data_ : RawMemory T := {}
  size_ : Nat := 0

namespace Vector

/-- The default constructor `Vector()`. -/
def ctor_default {T : Type} : Vector T := {}

/-- The constructor `Vector(size_t n)`. -/
def ctor_n {T : Type} [Inhabited T] (n : Nat) : Vector T :=
  let data : RawMemory T := RawMemory.ctor_n n
  { data_ := { data with memory_ := uninitialized_value_construct_n data.memory_ data.begin n },
    size_ := n }

/-- The copy constructor `Vector(const Vector& other)`. -/
def ctor_copy {T : Type} (other : Vector T) : Vector T :=
  let data : RawMemory T := RawMemory.ctor_n other.size_
  { data_ := { data with
      memory_ := uninitialized_copy_n other.data_.memory_ other.data_.begin other.size_
        data.memory_ data.begin },
    size_ := other.size_ }

/-- The member `swap(other)`; the result is `(*this, other)` after the call. -/
def swap {T : Type} (self other : Vector T) : Vector T × Vector T :=
  let d := self.data_.swap other.data_
  ({ data_ := d.1, size_ := other.size_ }, { data_ := d.2, size_ := self.size_ })

/-- The move constructor `Vector(Vector&& other)`; the result is `(*this, other)`
after the call. -/
def ctor_move {T : Type} (other : Vector T) : Vector T × Vector T :=
  swap {} other

/-- The loop `for (i = 0; i < size_ && i < other.size_; ++i) data_[i] = other.data_[i]`
of the copy assignment, started at `i` with `k` iterations left. -/
def assign_loop {T : Type} (src : List (Option T)) :
    List (Option T) → Nat → Nat → List (Option T)
  | dst, _, 0 => dst
  | dst, i, k + 1 => assign_loop src (dst.set i (src.getD i none)) (i + 1) k

/-- The copy assignment `operator=(const Vector& other)`; the result is `*this`
after the call (`other` is read through a reference to const). -/
def copy_assign {T : Type} (self other : Vector T) : Vector T :=
  if other.size_ > self.data_.capacity then
    let tmp := ctor_copy other
    (swap self tmp).1
  else
    let m1 := assign_loop other.data_.memory_ self.data_.memory_ 0
      (min self.size_ other.size_)
    let m2 :=
      if self.size_ < other.size_ then
        uninitialized_copy_n other.data_.memory_ (other.data_.begin + self.size_)
          (other.size_ - self.size_) m1 (self.data_.begin + self.size_)
      else if self.size_ > other.size_ then
        destroy_n m1 (self.data_.begin + other.size_) (self.size_ - other.size_)
      else m1
    { data_ := { self.data_ with memory_ := m2 }, size_ := other.size_ }

/-- The move assignment `operator=(Vector&& other)`; the result is
`(*this, other)` after the call. -/
def move_assign {T : Type} (self other : Vector T) : Vector T × Vector T :=
  swap self other

/-- The member `reserve(n)`. -/
def reserve {T : Type} (self : Vector T) (n : Nat) : Vector T :=
  if n ≤ self.data_.capacity then self
  else
    let newData : RawMemory T := RawMemory.ctor_n n
    let newData : RawMemory T := { newData with
      memory_ := uninitialized_move_n self.data_.memory_ self.data_.begin self.size_
        newData.memory_ newData.begin }
    let old : RawMemory T := { self.data_ with
      memory_ := destroy_n self.data_.memory_ self.data_.begin self.size_ }
    { data_ := (RawMemory.move_assign old newData).1, size_ := self.size_ }

/-- What the block that the vector owns when `reserve(n)` is called holds after
the call: it is untouched when `n <= capacity()`; otherwise its elements were
destroyed by `destroy_n`, the move assignment handed it to `newData`, and the
destructor of `newData` released it. -/
def reserve_old {T : Type} (self : Vector T) (n : Nat) : List (Option T) :=
  if n ≤ self.data_.capacity then self.data_.memory_
  else
    let newData : RawMemory T := RawMemory.ctor_n n
    let old : RawMemory T := { self.data_ with
      memory_ := destroy_n self.data_.memory_ self.data_.begin self.size_ }
    RawMemory.deallocate (RawMemory.move_assign old newData).2.memory_

/-- The member `resize(n)`. -/
def resize {T : Type} [Inhabited T] (self : Vector T) (n : Nat) : Vector T :=
  let v := self.reserve n
  let m :=
    if v.size_ < n then
      uninitialized_value_construct_n v.data_.memory_ (v.data_.begin + v.size_) (n - v.size_)
    else if v.size_ > n then
      destroy_n v.data_.memory_ (v.data_.begin + n) (v.size_ - n)
    else v.data_.memory_
  { data_ := { v.data_ with memory_ := m }, size_ := n }

/-- The growth step shared by `pushBack` and `emplaceBack`:
`if (size_ == data_.capacity()) reserve(size_ == 0 ? 1 : size_ * 2)`. -/
def grow {T : Type} (self : Vector T) : Vector T :=
  if self.size_ = self.data_.capacity then
    self.reserve (if self.size_ = 0 then 1 else size_mul self.size_ 2)
  else self

/-- What the block that the vector owns when `pushBack` or `emplaceBack` is called
holds after the growth step. -/
def grow_old {T : Type} (self : Vector T) : List (Option T) :=
  if self.size_ = self.data_.capacity then
    self.reserve_old (if self.size_ = 0 then 1 else size_mul self.size_ 2)
  else self.data_.memory_

/-- The member `pushBack(element)`, for both overloads: after the growth step the
new element is built by `T(element)` or `T(std::move(element))` from what
`element` refers to at that time.  A move is taken to leave its source as it
was, as it does for `int`. -/
def pushBack {T : Type} (self : Vector T) (element : Ref T) : Vector T :=
  let v := self.grow
  { data_ := { v.data_ with
      memory_ := v.data_.memory_.set (v.data_.begin + v.size_) (element.read self.grow_old) },
    size_ := size_add v.size_ 1 }

/-- The member `emplaceBack(args...)`: after the growth step the element is built
by the constructor `ctor` of `T` from the pack `args`, read at that time; the
result is the vector and the position of the new element. -/
def emplaceBack {T A : Type} (self : Vector T) (ctor : A → T) (args : Args T A) :
    Vector T × Nat :=
  let v := self.grow
  ({ data_ := { v.data_ with
       memory_ := v.data_.memory_.set (v.data_.begin + v.size_)
         ((args.read self.grow_old).map ctor) },
     size_ := size_add v.size_ 1 },
   v.data_.begin + v.size_)

/-- The member `popBack()`. -/
def popBack {T : Type} (self : Vector T) : Vector T :=
  { data_ := { self.data_ with
      memory_ := destroy_at self.data_.memory_ (size_sub (self.data_.begin + self.size_) 1) },
    size_ := size_sub self.size_ 1 }

/-- The member `begin()` (also `cbegin()`). -/
def begin {T : Type} (self : Vector T) : Nat := self.data_.begin

/-- The member `end()` (also `cend()`). -/
def end_ {T : Type} (self : Vector T) : Nat := self.data_.begin + self.size_

/-- The member `insert(pos, element)` with `pos = begin() + i`; the result is the
vector and the returned iterator. -/
def insert {T : Type} (self : Vector T) (i : Nat) (element : Ref T) : Vector T × Nat :=
  let v := self.pushBack element
  let v : Vector T := { v with data_ := { v.data_ with
    memory_ := rotate v.data_.memory_ (v.data_.begin + i)
      (size_sub (v.data_.begin + v.size_) 1) (v.data_.begin + v.size_) } }
  (v, v.begin + i)

/-- The member `emplace(pos, args...)` with `pos = cbegin() + i`. -/
def emplace {T A : Type} (self : Vector T) (i : Nat) (ctor : A → T) (args : Args T A) :
    Vector T × Nat :=
  let v := (self.emplaceBack ctor args).1
  let v : Vector T := { v with data_ := { v.data_ with
    memory_ := rotate v.data_.memory_ (v.data_.begin + i)
      (size_sub (v.data_.begin + v.size_) 1) (v.data_.begin + v.size_) } }
  (v, v.begin + i)

/-- The member `erase(pos)` with `pos = cbegin() + i`; the result is the vector
and the returned iterator. -/
def erase {T : Type} (self : Vector T) (i : Nat) : Vector T × Nat :=
  let m :=
    if size_add i 1 < self.size_ then
      move_range self.data_.memory_ (size_add (self.data_.begin + i) 1)
        (self.data_.begin + self.size_ - size_add (self.data_.begin + i) 1)
        (self.data_.begin + i)
    else self.data_.memory_
  let v := popBack { self with data_ := { self.data_ with memory_ := m } }
  (v, v.begin + i)

/-- The member `size()`. -/
def size {T : Type} (self : Vector T) : Nat := self.size_

/-- The member `capacity()`. -/
def capacity {T : Type} (self : Vector T) : Nat := self.data_.capacity

/-- The member `operator[](i)`: the content of slot `i` of the storage. -/
def index {T : Type} (self : Vector T) (i : Nat) : Option T := self.data_.index i

/-- The representation invariant of a vector: the block has `capacity_` slots,
`capacity_` is a `size_t` value, `size_ <= capacity_`, and the slots `[0, size_)`
hold live elements. -/
def WF {T : Type} (v : Vector T) : Prop :=
  v.data_.memory_.length = v.data_.capacity_ ∧
  v.data_.capacity_ < SIZE_RANGE ∧
  v.size_ ≤ v.data_.capacity_ ∧
  ∀ i, i < v.size_ → (v.index i).isSome = true

instance {T : Type} (v : Vector T) : Decidable v.WF := by
  unfold WF; infer_instance

/-- The live elements of a vector, in order. -/
def toList {T : Type} (v : Vector T) : List T :=
  (v.data_.memory_.take v.size_).filterMap id

end Vector

/-! ## Vectors of the test file -/

/-- The vector of `TestInsert` after `pushBack(1); pushBack(2)`: length 2, capacity 2. -/
def test_12 : Vector Nat :=
  (Vector.ctor_default.pushBack (Ref.outside 1)).pushBack (Ref.outside 2)

/-- The vector of `TestInsertWithReserve` after `reserve(5); pushBack(1); pushBack(2)`:
length 2, capacity 5. -/
def test_12_reserved : Vector Nat :=
  ((Vector.ctor_default.reserve 5).pushBack (Ref.outside 1)).pushBack (Ref.outside 2)

/-- The vector of `TestErase` after `pushBack(1); pushBack(2); pushBack(3)`. -/
def test_123 : Vector Nat :=
  ((Vector.ctor_default.pushBack (Ref.outside 1)).pushBack (Ref.outside 2)).pushBack
    (Ref.outside 3)

/-! ## Sequences of `pushBack` / `popBack` -/

/-- One call of the append family applied to a vector: `pushBack(element)` or
`popBack()`. -/
inductive Op (T : Type) where
  | push (element : Ref T) : Op T
  | pop : Op T

/-- The vector after a sequence of `pushBack` / `popBack` calls, in order. -/
def run_ops {T : Type} : Vector T → List (Op T) → Vector T
  | v, [] => v
  | v, Op.push r :: ops => run_ops (v.pushBack r) ops
  | v, Op.pop :: ops => run_ops v.popBack ops

/-- The reference stack of the specification: a list with append-at-end for a
push and remove-last for a pop.  The value pushed is the one the argument has
when the call is made: `x` for an outside object, the element `j` of the stack
for a reference to that element. -/
def ref_stack {T : Type} : List T → List (Op T) → List T
  | l, [] => l
  | l, Op.push r :: ops =>
    match r.read (l.map some) with
    | some x => ref_stack (l ++ [x]) ops
    | none => ref_stack l ops
  | l, Op.pop :: ops => ref_stack l.dropLast ops

/-- Whether a sequence of calls, started on `n` elements, never applies `popBack`
to an empty container and never passes a reference to an element that the
container does not have. -/
def calls_allowed {T : Type} : Nat → List (Op T) → Bool
  | _, [] => true
  | n, Op.push (Ref.outside _) :: ops => calls_allowed (n + 1) ops
  | n, Op.push (Ref.own j) :: ops => decide (j < n) && calls_allowed (n + 1) ops
  | n, Op.pop :: ops => decide (0 < n) && calls_allowed (n - 1) ops

/-- Whether every `pushBack` of a sequence of calls is given an object outside
the storage of the vector. -/
def outside_only {T : Type} : List (Op T) → Bool
  | [] => true
  | Op.push (Ref.outside _) :: ops => outside_only ops
  | Op.push (Ref.own _) :: _ => false
  | Op.pop :: ops => outside_only ops

/-- The number of pushes in a sequence of calls. -/
def count_push {T : Type} : List (Op T) → Nat
  | [] => 0
  | Op.push _ :: ops => count_push ops + 1
  | Op.pop :: ops => count_push ops

/-- The number of pops in a sequence of calls. -/
def count_pop {T : Type} : List (Op T) → Nat
  | [] => 0
  | Op.push _ :: ops => count_pop ops
  | Op.pop :: ops => count_pop ops + 1

/-- The vector after `pushBack(r)` for each argument `r` of the list, in order. -/
def push_all {T : Type} : Vector T → List (Ref T) → Vector T
  | v, [] => v
  | v, r :: rs => push_all (v.pushBack r) rs

/-! ## Element operations of an instrumented element type

The class `C` of the test file counts its constructions (`created`), its copy
assignments (`assigned`) and its destructions (`deleted`).  `C` declares a copy
constructor and no move constructor, so relocating a `C` is a construction. -/

/-- The counters of the class `C`. -/
structure Counts where
  created : Nat
  assigned : Nat
  deleted : Nat
deriving DecidableEq

/-- The sum of two counter readings. -/
def Counts.add (a b : Counts) : Counts :=
  { created := a.created + b.created, assigned := a.assigned + b.assigned,
    deleted := a.deleted + b.deleted }

namespace Vector

/-- The invariant of the data model: `size_ <= data_.capacity()`. -/
def Inv {T : Type} (v : Vector T) : Prop := v.size_ ≤ v.data_.capacity

instance {T : Type} (v : Vector T) : Decidable v.Inv := by
  unfold Inv; infer_instance

/-- The element operations of `Vector(size_t n)`: `uninitialized_value_construct_n`
constructs `n` elements. -/
def ctor_n_counts (n : Nat) : Counts := { created := n, assigned := 0, deleted := 0 }

/-- The element operations of the copy constructor: `uninitialized_copy_n`
constructs `other.size_` elements. -/
def ctor_copy_counts {T : Type} (other : Vector T) : Counts :=
  { created := other.size_, assigned := 0, deleted := 0 }

/-- The element operations of the destructor: `destroy_n(data_.begin(), size_)`. -/
def dtor_counts {T : Type} (self : Vector T) : Counts :=
  { created := 0, assigned := 0, deleted := self.size_ }

/-- The element operations of `swap`: pointers and sizes are exchanged, no element
is touched. -/
def swap_counts : Counts := { created := 0, assigned := 0, deleted := 0 }

/-- The element operations of the move assignment, which is one `swap`. -/
def move_assign_counts : Counts := swap_counts

/-- The element operations of `reserve(n)`: none when `n <= capacity()`, otherwise
`uninitialized_move_n` constructs `size_` elements and `destroy_n` destroys `size_`. -/
def reserve_counts {T : Type} (self : Vector T) (n : Nat) : Counts :=
  if n ≤ self.data_.capacity then { created := 0, assigned := 0, deleted := 0 }
  else { created := self.size_, assigned := 0, deleted := self.size_ }

/-- The element operations of the growth step of `pushBack` and `emplaceBack`. -/
def grow_counts {T : Type} (self : Vector T) : Counts :=
  if self.size_ = self.data_.capacity then
    self.reserve_counts (if self.size_ = 0 then 1 else size_mul self.size_ 2)
  else { created := 0, assigned := 0, deleted := 0 }

/-- The element operations of `pushBack`: the growth step, then one construction
by the placement `new`. -/
def pushBack_counts {T : Type} (self : Vector T) : Counts :=
  self.grow_counts.add { created := 1, assigned := 0, deleted := 0 }

/-- The element operations of the copy assignment.  With `other.size_ > capacity()`:
the copy `tmp` constructs `other.size_` elements and, after the swap, its
destructor destroys the `size_` former elements of `*this`.  Otherwise: the loop
assigns `min size_ other.size_` elements, then `uninitialized_copy_n` constructs
`other.size_ - size_` elements or `destroy_n` destroys `size_ - other.size_`. -/
def copy_assign_counts {T : Type} (self other : Vector T) : Counts :=
  if other.size_ > self.data_.capacity then
    (ctor_copy_counts other).add (dtor_counts (swap self (ctor_copy other)).2)
  else
    { created := if self.size_ < other.size_ then other.size_ - self.size_ else 0,
      assigned := min self.size_ other.size_,
      deleted :=
        if self.size_ < other.size_ then 0
        else if self.size_ > other.size_ then self.size_ - other.size_ else 0 }

/-- The number of existing elements relocated by the `pushBack` calls of `push_all`. -/
def relocated {T : Type} : Vector T → List (Ref T) → Nat
  | _, [] => 0
  | v, r :: rs => v.grow_counts.created + relocated (v.pushBack r) rs

end Vector

/-! ## Failing allocation and failing element copy -/

/-- The failures that can interrupt a copy: `operator new` throws, or the copy
constructor or copy assignment of an element throws. -/
inductive Failure where
  | OutOfMemory : Failure
  | ElementCopy : Failure
deriving DecidableEq

/-- The loop `std::uninitialized_copy_n` with a copy constructor `copy` that may
throw: on a throw the elements built so far are destroyed and the failure is
passed on, so no destination block is left. -/
def try_uninitialized_copy_n {T : Type} (copy : T → Except Failure T) (src : List (Option T)) :
    Nat → Nat → List (Option T) → Nat → Except Failure (List (Option T))
  | _, 0, dst, _ => Except.ok dst
  | first, n + 1, dst, d_first =>
    match src.getD first none with
    | none => try_uninitialized_copy_n copy src (first + 1) n (dst.set d_first none) (d_first + 1)
    | some x =>
      match copy x with
      | Except.error e => Except.error e
      | Except.ok y =>
        try_uninitialized_copy_n copy src (first + 1) n (dst.set d_first (some y)) (d_first + 1)

namespace Vector

/-- The copy constructor when the allocation of `n` slots succeeds only if
`alloc n` and the element copy constructor is `copy`. -/
def try_ctor_copy {T : Type} (alloc : Nat → Bool) (copy : T → Except Failure T)
    (other : Vector T) : Except Failure (Vector T) :=
  if alloc other.size_ then
    let data : RawMemory T := RawMemory.ctor_n other.size_
    match try_uninitialized_copy_n copy other.data_.memory_ other.data_.begin other.size_
        data.memory_ data.begin with
    | Except.error e => Except.error e
    | Except.ok m => Except.ok { data_ := { data with memory_ := m }, size_ := other.size_ }
  else Except.error Failure.OutOfMemory

/-- The assignment loop of the copy assignment with a copy assignment `copy` that
may throw: the block as it stands when the loop ends, and the failure if any. -/
def try_assign_loop {T : Type} (copy : T → Except Failure T) (src : List (Option T)) :
    List (Option T) → Nat → Nat → List (Option T) × Option Failure
  | dst, _, 0 => (dst, none)
  | dst, i, k + 1 =>
    match src.getD i none with
    | none => try_assign_loop copy src (dst.set i none) (i + 1) k
    | some x =>
      match copy x with
      | Except.error e => (dst, some e)
      | Except.ok y => try_assign_loop copy src (dst.set i (some y)) (i + 1) k

/-- The copy assignment with failing allocation and failing element copies: the
state of `*this` when the call ends, and the failure that left it, if any. -/
def try_copy_assign {T : Type} (alloc : Nat → Bool) (copy : T → Except Failure T)
    (self other : Vector T) : Vector T × Option Failure :=
  if other.size_ > self.data_.capacity then
    match try_ctor_copy alloc copy other with
    | Except.error e => (self, some e)
    | Except.ok tmp => ((swap self tmp).1, none)
  else
    match try_assign_loop copy other.data_.memory_ self.data_.memory_ 0
        (min self.size_ other.size_) with
    | (m1, some e) => ({ self with data_ := { self.data_ with memory_ := m1 } }, some e)
    | (m1, none) =>
      if self.size_ < other.size_ then
        match try_uninitialized_copy_n copy other.data_.memory_
            (other.data_.begin + self.size_) (other.size_ - self.size_) m1
            (self.data_.begin + self.size_) with
        | Except.error e => ({ self with data_ := { self.data_ with memory_ := m1 } }, some e)
        | Except.ok m2 =>
          ({ data_ := { self.data_ with memory_ := m2 }, size_ := other.size_ }, none)
      else if self.size_ > other.size_ then
        ({ data_ := { self.data_ with
             memory_ := destroy_n m1 (self.data_.begin + other.size_)
               (self.size_ - other.size_) },
           size_ := other.size_ }, none)
      else ({ data_ := { self.data_ with memory_ := m1 }, size_ := other.size_ }, none)

end Vector

/-! ## The size of the block requested by `RawMemory(n)` -/

/-- The argument `n * sizeof(T)` of `operator new` in `RawMemory::allocate(n)`, a
`size_t` product; `sizeof_T` is the size of an element in bytes. -/
def RawMemory.allocate_bytes (n sizeof_T : Nat) : Nat := size_mul n sizeof_T

/-! ## Slot-level facts about the library algorithms -/

theorem getD_set_slot {T : Type} (l : List (Option T)) (i j : Nat) (a : Option T) :
    (l.set i a).getD j none = if i = j ∧ j < l.length then a else l.getD j none := by
  simp only [List.getD_eq_getElem?_getD, List.getElem?_set]
  by_cases hij : i = j
  · subst hij
    by_cases hlt : i < l.length
    · simp [hlt]
    · simp [hlt, List.getElem?_eq_none (Nat.le_of_not_lt hlt)]
  · simp [hij]

theorem getD_of_length_le {T : Type} (l : List (Option T)) (j : Nat) (h : l.length ≤ j) :
    l.getD j none = none := by
  simp [List.getD_eq_getElem?_getD, List.getElem?_eq_none h]

theorem length_uninitialized_value_construct_n {T : Type} [Inhabited T] (n : Nat) :
    ∀ (mem : List (Option T)) (first : Nat),
      (uninitialized_value_construct_n mem first n).length = mem.length := by
  induction n with
  | zero => intro mem first; rfl
  | succ n ih => intro mem first; simp [uninitialized_value_construct_n, ih]

theorem length_uninitialized_copy_n {T : Type} (src : List (Option T)) (n : Nat) :
    ∀ (first : Nat) (dst : List (Option T)) (d : Nat),
      (uninitialized_copy_n src first n dst d).length = dst.length := by
  induction n with
  | zero => intro first dst d; rfl
  | succ n ih => intro first dst d; simp [uninitialized_copy_n, ih]

theorem getD_uninitialized_copy_n {T : Type} (src : List (Option T)) (n : Nat) :
    ∀ (first : Nat) (dst : List (Option T)) (d j : Nat),
      (uninitialized_copy_n src first n dst d).getD j none =
        if d ≤ j ∧ j < d + n ∧ j < dst.length then src.getD (first + (j - d)) none
        else dst.getD j none := by
  induction n with
  | zero =>
    intro first dst d j
    have h : ¬ (d ≤ j ∧ j < d + 0 ∧ j < dst.length) := by omega
    simp only [uninitialized_copy_n, if_neg h]
  | succ n ih =>
    intro first dst d j
    simp only [uninitialized_copy_n, ih, getD_set_slot, List.length_set]
    by_cases h1 : d = j
    · subst h1
      by_cases h2 : d < dst.length <;> simp [h2]
    · by_cases h2 : d + 1 ≤ j ∧ j < d + 1 + n ∧ j < dst.length
      · have h3 : d ≤ j ∧ j < d + (n + 1) ∧ j < dst.length := by omega
        have h4 : first + 1 + (j - (d + 1)) = first + (j - d) := by omega
        simp [h2, h3, h4]
      · have h3 : ¬ (d ≤ j ∧ j < d + (n + 1) ∧ j < dst.length) := by omega
        simp [h1, h2, h3]

theorem uninitialized_move_n_eq_copy {T : Type} (src : List (Option T)) (n : Nat) :
    ∀ (first : Nat) (dst : List (Option T)) (d : Nat),
      uninitialized_move_n src first n dst d = uninitialized_copy_n src first n dst d := by
  induction n with
  | zero => intro first dst d; rfl
  | succ n ih => intro first dst d; simp [uninitialized_move_n, uninitialized_copy_n, ih]

theorem length_destroy_n {T : Type} (n : Nat) :
    ∀ (mem : List (Option T)) (first : Nat), (destroy_n mem first n).length = mem.length := by
  induction n with
  | zero => intro mem first; rfl
  | succ n ih => intro mem first; simp [destroy_n, ih]

theorem getD_destroy_n {T : Type} (n : Nat) :
    ∀ (mem : List (Option T)) (first j : Nat),
      (destroy_n mem first n).getD j none =
        if first ≤ j ∧ j < first + n then none else mem.getD j none := by
  induction n with
  | zero =>
    intro mem first j
    have h : ¬ (first ≤ j ∧ j < first + 0) := by omega
    simp only [destroy_n, if_neg h]
  | succ n ih =>
    intro mem first j
    simp only [destroy_n, ih, getD_set_slot]
    by_cases h1 : first = j
    · subst h1
      by_cases h2 : first < mem.length
      · simp [h2]
      · have h3 := getD_of_length_le mem first (Nat.le_of_not_lt h2)
        simp only [List.getD_eq_getElem?_getD] at h3
        simp [h2, h3]
    · by_cases h2 : first + 1 ≤ j ∧ j < first + 1 + n
      · have h3 : first ≤ j ∧ j < first + (n + 1) := by omega
        simp [h2, h3]
      · have h3 : ¬ (first ≤ j ∧ j < first + (n + 1)) := by omega
        simp [h1, h2, h3]

theorem length_assign_loop {T : Type} (src : List (Option T)) (k : Nat) :
    ∀ (dst : List (Option T)) (i : Nat), (Vector.assign_loop src dst i k).length = dst.length := by
  induction k with
  | zero => intro dst i; rfl
  | succ k ih => intro dst i; simp [Vector.assign_loop, ih]

theorem getD_assign_loop {T : Type} (src : List (Option T)) (k : Nat) :
    ∀ (dst : List (Option T)) (i j : Nat),
      (Vector.assign_loop src dst i k).getD j none =
        if i ≤ j ∧ j < i + k ∧ j < dst.length then src.getD j none else dst.getD j none := by
  induction k with
  | zero =>
    intro dst i j
    have h : ¬ (i ≤ j ∧ j < i + 0 ∧ j < dst.length) := by omega
    simp only [Vector.assign_loop, if_neg h]
  | succ k ih =>
    intro dst i j
    simp only [Vector.assign_loop, ih, getD_set_slot, List.length_set]
    by_cases h1 : i = j
    · subst h1
      by_cases h2 : i < dst.length <;> simp [h2]
    · by_cases h2 : i + 1 ≤ j ∧ j < i + 1 + k ∧ j < dst.length
      · have h3 : i ≤ j ∧ j < i + (k + 1) ∧ j < dst.length := by omega
        simp [h2, h3]
      · have h3 : ¬ (i ≤ j ∧ j < i + (k + 1) ∧ j < dst.length) := by omega
        simp [h1, h2, h3]

theorem length_move_range {T : Type} (n : Nat) :
    ∀ (mem : List (Option T)) (first d : Nat), (move_range mem first n d).length = mem.length := by
  induction n with
  | zero => intro mem first d; rfl
  | succ n ih => intro mem first d; simp [move_range, ih]

theorem getD_move_range {T : Type} (n : Nat) :
    ∀ (mem : List (Option T)) (first d j : Nat), d < first →
      (move_range mem first n d).getD j none =
        if d ≤ j ∧ j < d + n ∧ j < mem.length then mem.getD (first + (j - d)) none
        else mem.getD j none := by
  induction n with
  | zero =>
    intro mem first d j _
    have h : ¬ (d ≤ j ∧ j < d + 0 ∧ j < mem.length) := by omega
    simp only [move_range, if_neg h]
  | succ n ih =>
    intro mem first d j hd
    simp only [move_range, ih _ (first + 1) (d + 1) j (by omega), getD_set_slot, List.length_set]
    by_cases h1 : d = j
    · subst h1
      by_cases h2 : d < mem.length <;> simp [h2]
    · by_cases h2 : d + 1 ≤ j ∧ j < d + 1 + n ∧ j < mem.length
      · have h3 : d ≤ j ∧ j < d + (n + 1) ∧ j < mem.length := by omega
        have h4 : first + 1 + (j - (d + 1)) = first + (j - d) := by omega
        have h5 : ¬ (d = first + (j - d)) := by omega
        simp [h2, h3, h4, h5]
      · have h3 : ¬ (d ≤ j ∧ j < d + (n + 1) ∧ j < mem.length) := by omega
        simp [h1, h2, h3]

theorem length_rotate {T : Type} (mem : List (Option T)) (f m l : Nat)
    (hfm : f ≤ m) (hml : m ≤ l) (hl : l ≤ mem.length) :
    (rotate mem f m l).length = mem.length := by
  simp only [rotate, List.length_append, List.length_take, List.length_drop]
  omega

theorem getD_rotate {T : Type} (mem : List (Option T)) (f m l j : Nat)
    (hfm : f ≤ m) (hml : m ≤ l) (hl : l ≤ mem.length) :
    (rotate mem f m l).getD j none =
      if j < f then mem.getD j none
      else if j < f + (l - m) then mem.getD (m + (j - f)) none
      else if j < l then mem.getD (f + (j - (f + (l - m)))) none
      else mem.getD j none := by
  have e1 : min f mem.length = f := by omega
  have e2 : min (l - m) (mem.length - m) = l - m := by omega
  have e3 : min (m - f) (mem.length - f) = m - f := by omega
  simp only [rotate, List.getD_eq_getElem?_getD, List.getElem?_append, List.getElem?_take,
    List.getElem?_drop, List.length_take, List.length_drop, e1, e2, e3]
  by_cases c1 : j < f
  · simp [c1]
  · by_cases c2 : j < f + (l - m)
    · have c3 : j - f < l - m := by omega
      simp [c1, c2, c3]
    · by_cases c4 : j < l
      · have c3 : ¬ (j - f < l - m) := by omega
        have c5 : j - f - (l - m) < m - f := by omega
        have c6 : f + (j - f - (l - m)) = f + (j - (f + (l - m))) := by omega
        simp [c1, c2, c3, c4, c5, c6]
      · have c3 : ¬ (j - f < l - m) := by omega
        have c5 : ¬ (j - f - (l - m) < m - f) := by omega
        have c6 : l + (j - f - (l - m) - (m - f)) = j := by omega
        simp [c1, c2, c3, c4, c5, c6]

/-! ## `size_t` arithmetic without wrap-around -/

theorem size_add_one_eq (a : Nat) (h : a + 1 < SIZE_RANGE) : size_add a 1 = a + 1 := by
  unfold size_add
  exact Nat.mod_eq_of_lt h

theorem size_sub_one_eq (a : Nat) (h0 : 0 < a) (h : a < SIZE_RANGE) : size_sub a 1 = a - 1 := by
  unfold size_sub SIZE_RANGE at *
  omega

theorem size_mul_two_eq (a : Nat) (h : a < 2 ^ 63) : size_mul a 2 = a * 2 := by
  unfold size_mul SIZE_RANGE
  omega

/-! ## `reserve` and the growth step -/

theorem reserve_size {T : Type} (v : Vector T) (n : Nat) : (v.reserve n).size_ = v.size_ := by
  unfold Vector.reserve
  split <;> rfl

theorem reserve_capacity {T : Type} (v : Vector T) (n : Nat) :
    (v.reserve n).data_.capacity_ = max v.data_.capacity_ n := by
  unfold Vector.reserve
  split
  · next h => simp only [RawMemory.capacity] at h; omega
  · next h =>
    simp only [RawMemory.capacity] at h
    simp only [RawMemory.move_assign, RawMemory.swap, RawMemory.ctor_n]
    omega

theorem reserve_length {T : Type} (v : Vector T) (n : Nat)
    (h : v.data_.memory_.length = v.data_.capacity_) :
    (v.reserve n).data_.memory_.length = (v.reserve n).data_.capacity_ := by
  unfold Vector.reserve
  split
  · exact h
  · simp [RawMemory.move_assign, RawMemory.swap, RawMemory.ctor_n, RawMemory.allocate,
      uninitialized_move_n_eq_copy, length_uninitialized_copy_n]

theorem reserve_index {T : Type} (v : Vector T) (n j : Nat)
    (hsz : v.size_ ≤ v.data_.capacity_) (hj : j < v.size_) :
    (v.reserve n).index j = v.index j := by
  unfold Vector.reserve
  split
  · rfl
  · next h =>
    simp only [RawMemory.capacity] at h
    have hc : 0 ≤ j ∧ j < 0 + v.size_ ∧ j < n := by omega
    simp [Vector.index, RawMemory.index, RawMemory.move_assign, RawMemory.swap,
      RawMemory.ctor_n, RawMemory.allocate, RawMemory.begin, uninitialized_move_n_eq_copy,
      getD_uninitialized_copy_n, hc, -List.getD_eq_getElem?_getD]
    intro hh
    omega

theorem grow_size {T : Type} (v : Vector T) : v.grow.size_ = v.size_ := by
  unfold Vector.grow
  split
  · exact reserve_size _ _
  · rfl

theorem grow_capacity {T : Type} (v : Vector T) (hfit : v.size_ < 2 ^ 63) :
    v.grow.data_.capacity_ =
      if v.size_ = v.data_.capacity_ then max 1 (2 * v.data_.capacity_)
      else v.data_.capacity_ := by
  unfold Vector.grow
  simp only [RawMemory.capacity]
  split
  · next h =>
    rw [reserve_capacity, size_mul_two_eq _ hfit]
    split <;> omega
  · rfl

theorem grow_length {T : Type} (v : Vector T)
    (h : v.data_.memory_.length = v.data_.capacity_) :
    v.grow.data_.memory_.length = v.grow.data_.capacity_ := by
  unfold Vector.grow
  split
  · exact reserve_length _ _ h
  · exact h

theorem grow_index {T : Type} (v : Vector T) (j : Nat)
    (hsz : v.size_ ≤ v.data_.capacity_) (hj : j < v.size_) :
    v.grow.index j = v.index j := by
  unfold Vector.grow
  split
  · exact reserve_index _ _ _ hsz hj
  · rfl

theorem grow_room {T : Type} (v : Vector T) (hsz : v.size_ ≤ v.data_.capacity_)
    (hfit : v.size_ < 2 ^ 63) : v.grow.size_ < v.grow.data_.capacity_ := by
  rw [grow_size, grow_capacity v hfit]
  split <;> omega

/-! ## `pushBack` -/

theorem grow_old_room {T : Type} (v : Vector T) (h : v.size_ < v.data_.capacity_) :
    v.grow_old = v.data_.memory_ := by
  have c : ¬ (v.size_ = v.data_.capacity) := by
    show ¬ (v.size_ = v.data_.capacity_)
    omega
  simp only [Vector.grow_old, if_neg c]

theorem grow_old_full {T : Type} (v : Vector T) (hfull : v.size_ = v.data_.capacity_)
    (hfit : v.size_ < 2 ^ 63) : v.grow_old = [] := by
  have hm := size_mul_two_eq v.size_ hfit
  have c : ¬ ((if v.size_ = 0 then 1 else size_mul v.size_ 2) ≤ v.data_.capacity_) := by
    rw [hm]
    split <;> omega
  simp only [Vector.grow_old, Vector.reserve_old, RawMemory.capacity, if_pos hfull, if_neg c,
    RawMemory.deallocate]

theorem pushBack_size {T : Type} (v : Vector T) (a : Ref T) (hfit : v.size_ < 2 ^ 63) :
    (v.pushBack a).size_ = v.size_ + 1 := by
  simp only [Vector.pushBack, grow_size]
  apply size_add_one_eq
  unfold SIZE_RANGE
  omega

theorem pushBack_capacity {T : Type} (v : Vector T) (a : Ref T) :
    (v.pushBack a).data_.capacity_ = v.grow.data_.capacity_ := rfl

theorem pushBack_length {T : Type} (v : Vector T) (a : Ref T)
    (h : v.data_.memory_.length = v.data_.capacity_) :
    (v.pushBack a).data_.memory_.length = (v.pushBack a).data_.capacity_ := by
  simp only [Vector.pushBack, List.length_set]
  exact grow_length v h

theorem pushBack_index_lt {T : Type} (v : Vector T) (a : Ref T) (j : Nat)
    (hsz : v.size_ ≤ v.data_.capacity_) (hj : j < v.size_) :
    (v.pushBack a).index j = v.index j := by
  have hg := grow_index v j hsz hj
  simp only [Vector.index, RawMemory.index] at hg
  have hne : ¬ (v.size_ = j ∧ j < v.grow.data_.memory_.length) := by omega
  simp only [Vector.pushBack, Vector.index, RawMemory.index, RawMemory.begin, grow_size,
    Nat.zero_add, getD_set_slot, if_neg hne, hg]

theorem pushBack_index_last {T : Type} (v : Vector T) (a : Ref T)
    (hlen : v.data_.memory_.length = v.data_.capacity_)
    (hsz : v.size_ ≤ v.data_.capacity_) (hfit : v.size_ < 2 ^ 63) :
    (v.pushBack a).index v.size_ = a.read v.grow_old := by
  have h1 := grow_room v hsz hfit
  have h2 := grow_length v hlen
  rw [grow_size] at h1
  have hc : v.size_ < v.grow.data_.memory_.length := by omega
  simp only [Vector.pushBack, Vector.index, RawMemory.index, RawMemory.begin, grow_size,
    Nat.zero_add, getD_set_slot, hc, and_self, if_true]

theorem pushBack_room {T : Type} (v : Vector T) (a : Ref T)
    (hsz : v.size_ ≤ v.data_.capacity_) (hfit : v.size_ < 2 ^ 63) :
    (v.pushBack a).size_ ≤ (v.pushBack a).data_.capacity_ := by
  have h1 := grow_room v hsz hfit
  rw [grow_size] at h1
  rw [pushBack_size v a hfit, pushBack_capacity]
  omega

/-! ## `insert` -/

theorem insert_memory {T : Type} (v : Vector T) (i : Nat) (a : Ref T)
    (hfit : v.size_ < 2 ^ 63) :
    (v.insert i a).1.data_.memory_ =
      rotate (v.pushBack a).data_.memory_ i v.size_ (v.size_ + 1) := by
  have h1 := pushBack_size v a hfit
  have h2 : size_sub (v.size_ + 1) 1 = v.size_ := by
    rw [size_sub_one_eq _ (by omega) (by unfold SIZE_RANGE; omega)]
    omega
  simp only [Vector.insert, RawMemory.begin, Nat.zero_add, h1, h2]

theorem insert_index {T : Type} (v : Vector T) (i : Nat) (a : Ref T) (hwf : v.WF)
    (hfit : v.size_ < 2 ^ 63) (hi : i ≤ v.size_) (j : Nat) :
    (v.insert i a).1.index j =
      if j < i then (v.pushBack a).index j
      else if j = i then (v.pushBack a).index v.size_
      else if j < v.size_ + 1 then (v.pushBack a).index (j - 1)
      else (v.pushBack a).index j := by
  obtain ⟨hlen, _, hsz, _⟩ := hwf
  have h1 := pushBack_length v a hlen
  have h2 := pushBack_room v a hsz hfit
  rw [pushBack_size v a hfit] at h2
  have h3 : v.size_ + 1 ≤ (v.pushBack a).data_.memory_.length := by omega
  simp only [Vector.index, RawMemory.index, insert_memory v i a hfit]
  rw [getD_rotate _ i v.size_ (v.size_ + 1) j hi (by omega) h3]
  by_cases c1 : j < i
  · simp only [if_pos c1]
  · by_cases c2 : j = i
    · subst c2
      have c3 : j < j + (v.size_ + 1 - v.size_) := by omega
      have c4 : v.size_ + (j - j) = v.size_ := by omega
      simp only [if_neg c1, if_pos c3, c4, if_true]
    · have c3 : ¬ (j < i + (v.size_ + 1 - v.size_)) := by omega
      by_cases c5 : j < v.size_ + 1
      · have c4 : i + (j - (i + (v.size_ + 1 - v.size_))) = j - 1 := by omega
        simp only [if_neg c1, if_neg c2, if_neg c3, if_pos c5, c4]
      · simp only [if_neg c1, if_neg c2, if_neg c3, if_neg c5]

/-- The scenario of `TestInsertWithReserve`: from `[1, 2]` with capacity 5,
`insert(begin, 0)`, `insert(end, 3)`, `insert(begin + 2, 10)` give `[0, 1, 10, 2, 3]`,
and the last call returns `begin() + 2`. -/
theorem test_insert_with_reserve :
    (test_12_reserved.insert 0 (Ref.outside 0)).1.toList = [0, 1, 2] ∧
    (((test_12_reserved.insert 0 (Ref.outside 0)).1.insert 3 (Ref.outside 3)).1).toList
      = [0, 1, 2, 3] ∧
    ((((test_12_reserved.insert 0 (Ref.outside 0)).1.insert 3 (Ref.outside 3)).1.insert 2
      (Ref.outside 10)).1).toList = [0, 1, 10, 2, 3] ∧
    ((((test_12_reserved.insert 0 (Ref.outside 0)).1.insert 3 (Ref.outside 3)).1.insert 2
      (Ref.outside 10)).2) = 2 := by
  decide

/-- The insert of a well-formed vector `v` holding fewer than `2 ^ 63` elements, at
`i <= size()`, with an argument `a`: the size is `size() + 1`, the element `i` is
what `a` yields when it is read after the growth step, the elements below `i`
are unchanged, the element formerly at `j >= i` is at `j + 1`, and the returned
iterator is `begin() + i` of the result. -/
theorem insert_shifts_right {T : Type} (v : Vector T) (i : Nat) (a : Ref T) (hwf : v.WF)
    (hfit : v.size_ < 2 ^ 63) (hi : i ≤ v.size) :
    (v.insert i a).1.size = v.size + 1 ∧
    (v.insert i a).1.index i = a.read v.grow_old ∧
    (∀ j, j < i → (v.insert i a).1.index j = v.index j) ∧
    (∀ j, i ≤ j → j < v.size → (v.insert i a).1.index (j + 1) = v.index j) ∧
    (v.insert i a).2 = (v.insert i a).1.begin + i := by
  have hwf2 := hwf
  obtain ⟨hlen, _, hsz, _⟩ := hwf2
  have hi2 : i ≤ v.size_ := hi
  refine ⟨?_, ?_, ?_, ?_, ?_⟩
  · show (v.pushBack a).size_ = v.size_ + 1
    exact pushBack_size v a hfit
  · rw [insert_index v i a hwf hfit hi2 i]
    by_cases c : i < i
    · omega
    · simp only [if_neg c, if_true]
      exact pushBack_index_last v a hlen hsz hfit
  · intro j hj
    rw [insert_index v i a hwf hfit hi2 j, if_pos hj]
    exact pushBack_index_lt v a j hsz (by omega)
  · intro j hij hj
    have hj2 : j < v.size_ := hj
    have c1 : ¬ (j + 1 < i) := by omega
    have c2 : ¬ (j + 1 = i) := by omega
    have c3 : j + 1 < v.size_ + 1 := by omega
    rw [insert_index v i a hwf hfit hi2 (j + 1), if_neg c1, if_neg c2, if_pos c3]
    exact pushBack_index_lt v a j hsz hj2
  · rfl

/-- The insert of an object outside the storage of the vector, of value `x`: the
element `i` of the result is `x`, on the reallocating and on the
non-reallocating path. -/
theorem insert_outside {T : Type} (v : Vector T) (i : Nat) (x : T) (hwf : v.WF)
    (hfit : v.size_ < 2 ^ 63) (hi : i ≤ v.size) :
    (v.insert i (Ref.outside x)).1.index i = some x :=
  (insert_shifts_right v i (Ref.outside x) hwf hfit hi).2.1

/-- The insert of the vector's own element `k` when `size() < capacity()`: there
is no reallocation and the element `i` of the result is the former element `k`. -/
theorem insert_own_with_room {T : Type} (v : Vector T) (i k : Nat) (hwf : v.WF)
    (hroom : v.size_ < v.data_.capacity_) (hfit : v.size_ < 2 ^ 63) (hi : i ≤ v.size) :
    (v.insert i (Ref.own k)).1.index i = v.index k := by
  rw [(insert_shifts_right v i (Ref.own k) hwf hfit hi).2.1, grow_old_room v hroom]
  rfl

/-- C1 at the failing input: on the full vector `v = [1, 2]` (size 2, capacity 2)
the call `insert(begin(), v[1])` passes a reference to the element in the slot 1.
The growth step releases the block before `pushBack` reads its argument, so the
element 0 of the result is no determinate value, where the claim requires the
value 2 of the argument; the former elements are at the indices 1 and 2.  The
same call on `[1, 2]` with capacity 5 does not reallocate and stores 2. -/
theorem insert_own_element_reallocating :
    test_12.WF ∧ test_12.size = 2 ∧ test_12.capacity = 2 ∧ test_12.index 1 = some 2 ∧
    (test_12.insert 0 (Ref.own 1)).1.size = 3 ∧
    (test_12.insert 0 (Ref.own 1)).1.index 0 = none ∧
    (test_12.insert 0 (Ref.own 1)).1.index 0 ≠ test_12.index 1 ∧
    (test_12.insert 0 (Ref.own 1)).1.index 1 = some 1 ∧
    (test_12.insert 0 (Ref.own 1)).1.index 2 = some 2 ∧
    (test_12_reserved.insert 0 (Ref.own 1)).1.index 0 = some 2 := by
  decide

/-! ## `erase` -/

theorem erase_size {T : Type} (v : Vector T) (i : Nat) (hwf : v.WF) (hi : i < v.size_) :
    (v.erase i).1.size_ = v.size_ - 1 := by
  obtain ⟨_, hcap, hsz, _⟩ := hwf
  simp only [Vector.erase, Vector.popBack]
  exact size_sub_one_eq _ (by omega) (by omega)

theorem erase_index {T : Type} (v : Vector T) (i : Nat) (hwf : v.WF) (hi : i < v.size_)
    (j : Nat) (hj : j + 1 < v.size_) :
    (v.erase i).1.index j = if i ≤ j then v.index (j + 1) else v.index j := by
  obtain ⟨hlen, hcap, hsz, _⟩ := hwf
  have e1 : size_add i 1 = i + 1 := size_add_one_eq _ (by omega)
  have e2 : size_sub v.size_ 1 = v.size_ - 1 := size_sub_one_eq _ (by omega) (by omega)
  have hne : ∀ (l : List (Option T)), ¬ (v.size_ - 1 = j ∧ j < l.length) := by
    intro l; omega
  simp only [Vector.erase, Vector.popBack, Vector.index, RawMemory.index, RawMemory.begin,
    Nat.zero_add, destroy_at, e1, e2, getD_set_slot, if_neg (hne _)]
  by_cases c : i + 1 < v.size_
  · simp only [if_pos c]
    rw [getD_move_range _ _ (i + 1) i j (by omega)]
    by_cases c1 : i ≤ j
    · have c2 : i ≤ j ∧ j < i + (v.size_ - (i + 1)) ∧ j < v.data_.memory_.length := by omega
      have c3 : i + 1 + (j - i) = j + 1 := by omega
      simp only [if_pos c2, if_pos c1, c3]
    · have c2 : ¬ (i ≤ j ∧ j < i + (v.size_ - (i + 1)) ∧ j < v.data_.memory_.length) := by
        omega
      simp only [if_neg c2, if_neg c1]
  · have c1 : ¬ (i ≤ j) := by omega
    simp only [if_neg c, if_neg c1]

/-- The scenario of `TestErase`: `erase(begin + 1)` on `[1, 2, 3]` gives `[1, 3]` and
returns `begin() + 1`. -/
theorem test_erase :
    (test_123.erase 1).1.toList = [1, 3] ∧ (test_123.erase 1).1.size = 2 ∧
    (test_123.erase 1).2 = (test_123.erase 1).1.begin + 1 := by
  decide

/-- C2: for a well-formed vector `v` and every `i < size()`, `erase(begin() + i)`
gives a vector of size `size() - 1` whose elements below `i` are unchanged and in
which the element formerly at `j > i` is at `j - 1`; the returned iterator is
`begin() + i` of the result, which is `end()` when `i` was the last index. -/
theorem erase_shifts_left {T : Type} (v : Vector T) (i : Nat) (hwf : v.WF) (hi : i < v.size) :
    (v.erase i).1.size = v.size - 1 ∧
    (∀ j, j < i → (v.erase i).1.index j = v.index j) ∧
    (∀ j, i < j → j < v.size → (v.erase i).1.index (j - 1) = v.index j) ∧
    (v.erase i).2 = (v.erase i).1.begin + i ∧
    (i + 1 = v.size → (v.erase i).2 = (v.erase i).1.end_) := by
  have hi2 : i < v.size_ := hi
  refine ⟨erase_size v i hwf hi2, ?_, ?_, rfl, ?_⟩
  · intro j hj
    have c : ¬ (i ≤ j) := by omega
    rw [erase_index v i hwf hi2 j (by omega), if_neg c]
  · intro j hij hj
    have hj2 : j < v.size_ := hj
    have c : i ≤ j - 1 := by omega
    have e : j - 1 + 1 = j := by omega
    rw [erase_index v i hwf hi2 (j - 1) (by omega), if_pos c, e]
  · intro hlast
    have hlast2 : i + 1 = v.size_ := hlast
    show (v.erase i).1.begin + i = (v.erase i).1.data_.begin + (v.erase i).1.size_
    rw [erase_size v i hwf hi2]
    simp only [Vector.begin, RawMemory.begin]
    omega

/-- Witness of C2 on `[1, 2, 3]`, erasing index `1`. -/
theorem erase_shifts_left_witness :
    test_123.WF ∧ 1 < test_123.size ∧
    ((test_123.erase 1).1.size = test_123.size - 1 ∧
     (∀ j, j < 1 → (test_123.erase 1).1.index j = test_123.index j) ∧
     (∀ j, 1 < j → j < test_123.size → (test_123.erase 1).1.index (j - 1) = test_123.index j) ∧
     (test_123.erase 1).2 = (test_123.erase 1).1.begin + 1 ∧
     (1 + 1 = test_123.size → (test_123.erase 1).2 = (test_123.erase 1).1.end_)) :=
  ⟨by decide, by decide, erase_shifts_left test_123 1 (by decide) (by decide)⟩

/-! ## `popBack` and sequences of `pushBack` / `popBack` -/

theorem pushBack_WF {T : Type} (v : Vector T) (a : Ref T) (hwf : v.WF)
    (hfit : v.size_ < 2 ^ 63) (hread : (a.read v.grow_old).isSome = true) :
    (v.pushBack a).WF := by
  obtain ⟨hlen, hcap, hsz, hlive⟩ := hwf
  refine ⟨pushBack_length v a hlen, ?_, pushBack_room v a hsz hfit, ?_⟩
  · rw [pushBack_capacity, grow_capacity v hfit]
    unfold SIZE_RANGE at *
    split <;> omega
  · intro i hi
    rw [pushBack_size v a hfit] at hi
    by_cases c : i < v.size_
    · rw [pushBack_index_lt v a i hsz c]
      exact hlive i c
    · have e : i = v.size_ := by omega
      rw [e, pushBack_index_last v a hlen hsz hfit]
      exact hread

theorem popBack_size {T : Type} (v : Vector T) (hwf : v.WF) (hpos : 0 < v.size_) :
    v.popBack.size_ = v.size_ - 1 := by
  obtain ⟨_, hcap, hsz, _⟩ := hwf
  simp only [Vector.popBack]
  exact size_sub_one_eq _ hpos (by omega)

theorem popBack_index {T : Type} (v : Vector T) (hwf : v.WF) (hpos : 0 < v.size_)
    (j : Nat) (hj : j + 1 < v.size_) : v.popBack.index j = v.index j := by
  obtain ⟨_, hcap, hsz, _⟩ := hwf
  have e : size_sub v.size_ 1 = v.size_ - 1 := size_sub_one_eq _ hpos (by omega)
  have hne : ¬ (v.size_ - 1 = j ∧ j < v.data_.memory_.length) := by omega
  simp only [Vector.popBack, Vector.index, RawMemory.index, RawMemory.begin, Nat.zero_add,
    destroy_at, e, getD_set_slot, if_neg hne]

theorem popBack_WF {T : Type} (v : Vector T) (hwf : v.WF) (hpos : 0 < v.size_) :
    v.popBack.WF := by
  have hs := popBack_size v hwf hpos
  have hi := popBack_index v hwf hpos
  obtain ⟨hlen, hcap, hsz, hlive⟩ := hwf
  refine ⟨?_, hcap, ?_, ?_⟩
  · simp only [Vector.popBack, destroy_at, List.length_set]
    exact hlen
  · rw [hs]
    show v.size_ - 1 ≤ v.data_.capacity_
    omega
  · intro i hlt
    rw [hs] at hlt
    rw [hi i (by omega)]
    exact hlive i (by omega)

theorem run_ops_refines {T : Type} (ops : List (Op T)) :
    ∀ (v : Vector T) (l : List T), v.WF → v.size_ = l.length →
      (∀ i, i < l.length → v.index i = l[i]?) →
      calls_allowed l.length ops = true → outside_only ops = true →
      l.length + count_push ops < 2 ^ 63 →
      (run_ops v ops).WF ∧ (run_ops v ops).size_ = (ref_stack l ops).length ∧
      (∀ i, i < (ref_stack l ops).length → (run_ops v ops).index i = (ref_stack l ops)[i]?) ∧
      (ref_stack l ops).length + count_pop ops = l.length + count_push ops := by
  induction ops with
  | nil =>
    intro v l hwf hsz hel _ _ _
    exact ⟨hwf, hsz, hel, rfl⟩
  | cons op ops ih =>
    intro v l hwf hsz hel hallowed hout hfit
    cases op with
    | push r =>
      cases r with
      | own j => simp [outside_only] at hout
      | outside x =>
        simp only [calls_allowed, count_push, outside_only] at hallowed hfit hout
        have hfit2 : v.size_ < 2 ^ 63 := by omega
        have hsz2 : v.size_ ≤ v.data_.capacity_ := hwf.2.2.1
        have h := ih (v.pushBack (Ref.outside x)) (l ++ [x])
          (pushBack_WF v (Ref.outside x) hwf hfit2 rfl)
          (by rw [pushBack_size v _ hfit2, hsz]; simp)
          (by
            intro i hi
            simp only [List.length_append, List.length_singleton] at hi
            by_cases c : i < l.length
            · rw [pushBack_index_lt v _ i hsz2 (by omega), hel i c,
                List.getElem?_append_left c]
            · have e : i = v.size_ := by omega
              have e2 : l.length ≤ v.size_ := by omega
              rw [e, pushBack_index_last v _ hwf.1 hsz2 hfit2,
                List.getElem?_append_right e2, hsz]
              simp [Ref.read])
          (by simpa using hallowed)
          hout
          (by simp only [List.length_append, List.length_singleton]; omega)
        simp only [run_ops, ref_stack, Ref.read, count_push, count_pop]
        refine ⟨h.1, h.2.1, h.2.2.1, ?_⟩
        have h4 := h.2.2.2
        simp only [List.length_append, List.length_singleton] at h4
        omega
    | pop =>
      simp only [calls_allowed, count_push, outside_only, Bool.and_eq_true,
        decide_eq_true_eq] at hallowed hfit hout
      obtain ⟨hpos, hallowed⟩ := hallowed
      have hpos2 : 0 < v.size_ := by omega
      have h := ih v.popBack l.dropLast (popBack_WF v hwf hpos2)
        (by rw [popBack_size v hwf hpos2, hsz]; simp)
        (by
          intro i hi
          simp only [List.length_dropLast] at hi
          rw [popBack_index v hwf hpos2 i (by omega), hel i (by omega),
            List.getElem?_dropLast, if_pos hi])
        (by simpa using hallowed)
        hout
        (by simp only [List.length_dropLast]; omega)
      simp only [run_ops, ref_stack, count_push, count_pop]
      refine ⟨h.1, h.2.1, h.2.2.1, ?_⟩
      have h4 := h.2.2.2
      simp only [List.length_dropLast] at h4
      omega

theorem default_WF {T : Type} : (Vector.ctor_default : Vector T).WF := by
  refine ⟨rfl, ?_, Nat.le_refl _, ?_⟩
  · show 0 < SIZE_RANGE
    unfold SIZE_RANGE
    omega
  · intro i hi
    exact absurd hi (Nat.not_lt_zero i)

/-- The sequences of `pushBack` / `popBack` calls whose pushed objects are outside
the storage of the vector (fewer than `2 ^ 63` pushes, no `popBack` on an empty
container), applied to a default-constructed vector: `size()` is the number of
pushes minus the number of pops, and the elements at the indices `[0, size())`
are those of the reference stack driven by the same sequence. -/
theorem pushBack_popBack_sequence {T : Type} (ops : List (Op T))
    (hallowed : calls_allowed 0 ops = true) (hout : outside_only ops = true)
    (hfit : count_push ops < 2 ^ 63) :
    (run_ops Vector.ctor_default ops).size = count_push ops - count_pop ops ∧
    (run_ops Vector.ctor_default ops).size = (ref_stack [] ops).length ∧
    ∀ i, i < (run_ops Vector.ctor_default ops).size →
      (run_ops Vector.ctor_default ops).index i = (ref_stack [] ops)[i]? := by
  have h := run_ops_refines ops Vector.ctor_default [] default_WF rfl
    (by intro i hi; exact absurd hi (Nat.not_lt_zero i)) hallowed hout
    (by simpa using hfit)
  obtain ⟨_, h2, h3, h4⟩ := h
  simp only [List.length_nil, Nat.zero_add] at h4
  refine ⟨?_, h2, ?_⟩
  · show (run_ops Vector.ctor_default ops).size_ = count_push ops - count_pop ops
    omega
  · intro i hi
    have hi2 : i < (run_ops Vector.ctor_default ops).size_ := hi
    exact h3 i (by omega)

/-- C3 at the failing input: the calls `pushBack(1); pushBack(2); pushBack(v[0])` on
a default-constructed vector `v`.  The third call finds size 2 and capacity 2;
its growth step releases the block before the argument, a reference to the
element in the slot 0, is read.  The reference stack driven by the same calls is
`[1, 2, 1]`; the vector has size 3 and the elements 1 and 2 at the indices 0 and
1, but its element 2 is no determinate value. -/
theorem pushBack_own_element_reallocating :
    calls_allowed 0 [Op.push (Ref.outside 1), Op.push (Ref.outside 2), Op.push (Ref.own 0)]
      = true ∧
    ref_stack [] [Op.push (Ref.outside 1), Op.push (Ref.outside 2), Op.push (Ref.own 0)]
      = [1, 2, 1] ∧
    (run_ops Vector.ctor_default
      [Op.push (Ref.outside 1), Op.push (Ref.outside 2), Op.push (Ref.own 0)]).size = 3 ∧
    (run_ops Vector.ctor_default
      [Op.push (Ref.outside 1), Op.push (Ref.outside 2), Op.push (Ref.own 0)]).index 0
      = some 1 ∧
    (run_ops Vector.ctor_default
      [Op.push (Ref.outside 1), Op.push (Ref.outside 2), Op.push (Ref.own 0)]).index 1
      = some 2 ∧
    (run_ops Vector.ctor_default
      [Op.push (Ref.outside 1), Op.push (Ref.outside 2), Op.push (Ref.own 0)]).index 2
      = none ∧
    (run_ops Vector.ctor_default
      [Op.push (Ref.outside 1), Op.push (Ref.outside 2), Op.push (Ref.own 0)]).index 2 ≠
      (ref_stack [] [Op.push (Ref.outside 1), Op.push (Ref.outside 2), Op.push (Ref.own 0)])[2]?
      := by
  decide

/-! ## Copy construction and copy assignment -/

theorem ctor_copy_index {T : Type} (other : Vector T) (j : Nat) (hj : j < other.size_) :
    (Vector.ctor_copy other).index j = other.index j := by
  simp only [Vector.ctor_copy, Vector.index, RawMemory.index, RawMemory.ctor_n,
    RawMemory.allocate, RawMemory.begin, getD_uninitialized_copy_n, List.length_replicate]
  split_ifs <;> first | rfl | (exfalso; omega) | (congr 1; omega)

theorem set_getD_self {T : Type} (l : List (Option T)) (i : Nat) :
    l.set i (l.getD i none) = l := by
  apply List.ext_getElem?
  intro j
  rw [List.getElem?_set]
  by_cases c : i = j
  · subst c
    by_cases c2 : i < l.length
    · simp [c2, List.getD_eq_getElem?_getD, List.getElem?_eq_getElem c2]
    · simp [c2, List.getElem?_eq_none (Nat.le_of_not_lt c2)]
  · simp [c]

theorem assign_loop_self {T : Type} (l : List (Option T)) (k : Nat) :
    ∀ (i : Nat), Vector.assign_loop l l i k = l := by
  induction k with
  | zero => intro i; rfl
  | succ k ih =>
    intro i
    simp only [Vector.assign_loop, set_getD_self, ih]

theorem copy_assign_size {T : Type} (self other : Vector T) :
    (self.copy_assign other).size_ = other.size_ := by
  unfold Vector.copy_assign
  split <;> rfl

theorem copy_assign_capacity {T : Type} (self other : Vector T) :
    (self.copy_assign other).data_.capacity_ =
      if other.size_ > self.data_.capacity_ then other.size_ else self.data_.capacity_ := by
  unfold Vector.copy_assign
  simp only [RawMemory.capacity]
  split <;> rfl

theorem copy_assign_index {T : Type} (self other : Vector T)
    (hlen : self.data_.memory_.length = self.data_.capacity_) (j : Nat) (hj : j < other.size_) :
    (self.copy_assign other).index j = other.index j := by
  unfold Vector.copy_assign
  simp only [RawMemory.capacity]
  split
  · exact ctor_copy_index other j hj
  · next hcap =>
    have hjl : j < self.data_.memory_.length := by omega
    simp only [Vector.index, RawMemory.index, RawMemory.begin]
    split_ifs <;>
      simp only [getD_uninitialized_copy_n, getD_destroy_n, getD_assign_loop,
        length_assign_loop] <;>
      split_ifs <;> first | rfl | (exfalso; omega) | (congr 1; omega)

theorem copy_assign_self {T : Type} (v : Vector T) (hsz : v.size_ ≤ v.data_.capacity_) :
    v.copy_assign v = v := by
  unfold Vector.copy_assign
  simp only [RawMemory.capacity]
  have c1 : ¬ (v.size_ > v.data_.capacity_) := by omega
  have c2 : ¬ (v.size_ < v.size_) := by omega
  have c3 : ¬ (v.size_ > v.size_) := by omega
  simp only [if_neg c1, if_neg c2, if_neg c3, assign_loop_self]

/-- The scenarios of `TestAssign` on `int` vectors: `[1, 2] = [1, 2, 3]` (a
reallocation) and `[1, 2, 3] = [1, 2]` (in place). -/
theorem test_assign :
    (test_12.copy_assign test_123).toList = [1, 2, 3] ∧
    (test_12.copy_assign test_123).size = 3 ∧
    (test_123.copy_assign test_12).toList = [1, 2] ∧
    (test_123.copy_assign test_12).size = 2 := by
  decide

/-- C4: for well-formed vectors `self` and `other`, after the copy assignment
`self = other` the size of `self` is `other.size()` and `self[i] == other[i]` for
every `i < other.size()`, whatever the relation between the two sizes and between
`other.size()` and the capacity of `self`; `other`, read through a reference to
const, is not written, and when `other` is `self` itself the vector is unchanged. -/
theorem copy_assign_copies {T : Type} (self other : Vector T) (hself : self.WF)
    (hother : other.WF) :
    (self.copy_assign other).size = other.size ∧
    (∀ i, i < other.size → (self.copy_assign other).index i = other.index i) ∧
    other.copy_assign other = other := by
  refine ⟨copy_assign_size self other, ?_, copy_assign_self other hother.2.2.1⟩
  intro i hi
  exact copy_assign_index self other hself.1 i hi

/-- Witness of C4 on `[1, 2] = [1, 2, 3]`. -/
theorem copy_assign_copies_witness :
    test_12.WF ∧ test_123.WF ∧
    ((test_12.copy_assign test_123).size = test_123.size ∧
     (∀ i, i < test_123.size → (test_12.copy_assign test_123).index i = test_123.index i) ∧
     test_123.copy_assign test_123 = test_123) :=
  ⟨by decide, by decide, copy_assign_copies test_12 test_123 (by decide) (by decide)⟩

/-- C5: the copy assignment `dst = src` leaves `dst.capacity()` as it was when
`src.size() <= dst.capacity()`, and leaves it at least `src.size()` when
`src.size() > dst.capacity()`. -/
theorem copy_assign_capacity_frame {T : Type} (dst src : Vector T) :
    (src.size ≤ dst.capacity → (dst.copy_assign src).capacity = dst.capacity) ∧
    (src.size > dst.capacity → (dst.copy_assign src).capacity ≥ src.size) := by
  have h := copy_assign_capacity dst src
  constructor
  · intro hle
    have hle2 : src.size_ ≤ dst.data_.capacity_ := hle
    have c : ¬ (src.size_ > dst.data_.capacity_) := by omega
    rw [if_neg c] at h
    exact h
  · intro hgt
    have hgt2 : src.size_ > dst.data_.capacity_ := hgt
    rw [if_pos hgt2] at h
    show (dst.copy_assign src).data_.capacity_ ≥ src.size_
    omega

/-- Witness of C5: `[1, 2, 3] = [1, 2]` keeps capacity 4, and `[1, 2] = [1, 2, 3]`
ends with capacity at least 3. -/
theorem copy_assign_capacity_frame_witness :
    (test_12.size ≤ test_123.capacity ∧
      (test_123.copy_assign test_12).capacity = test_123.capacity) ∧
    (test_123.size > test_12.capacity ∧
      (test_12.copy_assign test_123).capacity ≥ test_123.size) :=
  ⟨⟨by decide, (copy_assign_capacity_frame test_123 test_12).1 (by decide)⟩,
   ⟨by decide, (copy_assign_capacity_frame test_12 test_123).2 (by decide)⟩⟩

/-! ## Move construction and move assignment -/

/-- C6: move-constructing `dst` from `src` gives `dst` the whole prior state of
`src` (block, capacity and size, hence the same elements in the same order) and
leaves `src` with `size() == 0` and `capacity() == 0`. -/
theorem ctor_move_takes_state {T : Type} (src : Vector T) :
    (Vector.ctor_move src).1 = src ∧
    (Vector.ctor_move src).1.size = src.size ∧
    (Vector.ctor_move src).1.capacity = src.capacity ∧
    (∀ i, (Vector.ctor_move src).1.index i = src.index i) ∧
    (Vector.ctor_move src).2.size = 0 ∧
    (Vector.ctor_move src).2.capacity = 0 := by
  refine ⟨rfl, rfl, rfl, fun _ => rfl, rfl, rfl⟩

/-- The move constructor of `TestCtors`: moving from a vector of five elements
leaves it with size 0 and capacity 0 and gives the new vector size 5, capacity 5. -/
theorem test_ctors_move :
    (Vector.ctor_move (Vector.ctor_n 5 : Vector Nat)).1.size = 5 ∧
    (Vector.ctor_move (Vector.ctor_n 5 : Vector Nat)).1.capacity = 5 ∧
    (Vector.ctor_move (Vector.ctor_n 5 : Vector Nat)).2.size = 0 ∧
    (Vector.ctor_move (Vector.ctor_n 5 : Vector Nat)).2.capacity = 0 := by
  decide

/-- Counterexample to C7 as stated: after `dst = std::move(src)` with
`dst = [1, 2]` and `src = [1, 2, 3]`, the source has size 2 and capacity 2, not 0. -/
theorem move_assign_source_not_empty :
    ¬ ((Vector.move_assign test_12 test_123).2.size = 0 ∧
       (Vector.move_assign test_12 test_123).2.capacity = 0) := by
  decide

/-- C7 (amended): the move assignment `dst = std::move(src)` leaves `dst` with the
prior size, capacity and elements of `src`, and leaves `src` with the prior
state of `dst`; so `src` ends with `size() == 0` and `capacity() == 0` exactly
when `dst` had size 0 and capacity 0 before the call. -/
theorem move_assign_source_gets_destination {T : Type} (dst src : Vector T) :
    (Vector.move_assign dst src).1.size = src.size ∧
    (Vector.move_assign dst src).1.capacity = src.capacity ∧
    (∀ i, (Vector.move_assign dst src).1.index i = src.index i) ∧
    (Vector.move_assign dst src).2.size = dst.size ∧
    (Vector.move_assign dst src).2.capacity = dst.capacity ∧
    (∀ i, (Vector.move_assign dst src).2.index i = dst.index i) ∧
    (((Vector.move_assign dst src).2.size = 0 ∧ (Vector.move_assign dst src).2.capacity = 0) ↔
      (dst.size = 0 ∧ dst.capacity = 0)) := by
  refine ⟨rfl, rfl, fun _ => rfl, rfl, rfl, fun _ => rfl, Iff.rfl⟩

/-! ## `reserve` and `resize` -/

/-- The scenario of `TestReserveWithSomething`: one element, then `reserve(2)`
gives size 1 and capacity 2, and the next `emplaceBack` keeps capacity 2. -/
theorem test_reserve_with_something :
    (((Vector.ctor_default : Vector Nat).emplaceBack id (Args.outside 7)).1.reserve 2).size = 1 ∧
    (((Vector.ctor_default : Vector Nat).emplaceBack id (Args.outside 7)).1.reserve 2).capacity = 2 ∧
    ((((Vector.ctor_default : Vector Nat).emplaceBack id (Args.outside 7)).1.reserve 2).emplaceBack id (Args.outside 8)).1.capacity
      = 2 ∧
    ((((Vector.ctor_default : Vector Nat).emplaceBack id (Args.outside 7)).1.reserve 2).emplaceBack id (Args.outside 8)).1.toList
      = [7, 8] := by
  decide

theorem resize_size {T : Type} [Inhabited T] (v : Vector T) (n : Nat) :
    (v.resize n).size_ = n := rfl

theorem resize_capacity {T : Type} [Inhabited T] (v : Vector T) (n : Nat) :
    (v.resize n).data_.capacity_ = max v.data_.capacity_ n := by
  show (v.reserve n).data_.capacity_ = max v.data_.capacity_ n
  exact reserve_capacity v n

/-- The scenarios of `TestResizeWithSomething` and `TestResizeToLess` on `int`
vectors: `resize(5)` of `[7]` gives `[7, 0, 0, 0, 0]`, and `resize(3)` of a
vector built by `Vector(5)` gives size 3 with capacity still 5. -/
theorem test_resize :
    (((Vector.ctor_default : Vector Nat).emplaceBack id (Args.outside 7)).1.resize 5).toList = [7, 0, 0, 0, 0] ∧
    (((Vector.ctor_default : Vector Nat).emplaceBack id (Args.outside 7)).1.resize 5).size = 5 ∧
    ((Vector.ctor_n 5 : Vector Nat).resize 3).size = 3 ∧
    ((Vector.ctor_n 5 : Vector Nat).resize 3).capacity = 5 := by
  decide

theorem grow_eq_self {T : Type} (w : Vector T) (h : w.size_ < w.data_.capacity_) :
    w.grow = w := by
  unfold Vector.grow
  have c : ¬ (w.size_ = w.data_.capacity) := by
    show ¬ (w.size_ = w.data_.capacity_)
    omega
  rw [if_neg c]

theorem emplaceBack_eq_pushBack {T A : Type} (v : Vector T) (ctor : A → T) (a : A) :
    (v.emplaceBack ctor (Args.outside a)).1 = v.pushBack (Ref.outside (ctor a)) := rfl

theorem emplaceBack_own_eq_pushBack {T : Type} (v : Vector T) (j : Nat) :
    (v.emplaceBack id (Args.own j id)).1 = v.pushBack (Ref.own j) := by
  simp only [Vector.emplaceBack, Vector.pushBack, Args.read, Ref.read, Option.map_id_fun, id]

theorem emplaceBack_size_capacity {T A : Type} (v : Vector T) (ctor : A → T)
    (args : Args T A) (r : Ref T) :
    (v.emplaceBack ctor args).1.size_ = (v.pushBack r).size_ ∧
    (v.emplaceBack ctor args).1.data_.capacity_ = (v.pushBack r).data_.capacity_ :=
  ⟨rfl, rfl⟩

theorem push_all_reserved {T : Type} (xs : List (Ref T)) :
    ∀ (w : Vector T), w.size_ + xs.length ≤ w.data_.capacity_ →
      w.data_.capacity_ < SIZE_RANGE →
      (push_all w xs).data_.capacity_ = w.data_.capacity_ ∧
      (push_all w xs).size_ = w.size_ + xs.length := by
  induction xs with
  | nil => intro w _ _; exact ⟨rfl, rfl⟩
  | cons x xs ih =>
    intro w hroom hcap
    simp only [List.length_cons] at hroom
    have hg := grow_eq_self w (by omega)
    have hc : (w.pushBack x).data_.capacity_ = w.data_.capacity_ := by
      rw [pushBack_capacity, hg]
    have hs : (w.pushBack x).size_ = w.size_ + 1 := by
      simp only [Vector.pushBack, hg]
      exact size_add_one_eq _ (by omega)
    have h := ih (w.pushBack x) (by rw [hs, hc]; omega) (by rw [hc]; exact hcap)
    simp only [push_all, List.length_cons]
    rw [h.1, h.2, hc, hs]
    exact ⟨rfl, by omega⟩

/-- The scenario of `TestReserveEmpty`: `reserve(5)` on a new vector, then two
pushes, keep the capacity at 5. -/
theorem test_reserve_empty :
    ((Vector.ctor_default : Vector Nat).reserve 5).capacity = 5 ∧
    (push_all ((Vector.ctor_default : Vector Nat).reserve 5) [Ref.outside 1, Ref.outside 2]).capacity = 5 ∧
    (push_all ((Vector.ctor_default : Vector Nat).reserve 5) [Ref.outside 1, Ref.outside 2]).size = 2 := by
  decide

/-- C10: for a vector `v` with `size() <= capacity()` holding fewer than `2 ^ 63`
elements, `pushBack` and `emplaceBack`, whatever their arguments refer to, change
the capacity to `max 1 (2 * capacity())` when `size() == capacity()` and leave it
unchanged when `size() < capacity()`.  Consequently, for an empty well-formed
vector `e` whose capacity is at most `n` (in particular capacity 0), after
`reserve(n)` every run of at most `n` pushes keeps the capacity at `n`, and before
each of these pushes the growth step is the identity: there is no reallocation. -/
theorem push_growth_policy {T A : Type} (v : Vector T) (x : Ref T) (ctor : A → T)
    (args : Args T A) (e : Vector T) (n : Nat) (xs : List (Ref T))
    (_hinv : v.size ≤ v.capacity) (hfit : v.size < 2 ^ 63) :
    (v.size = v.capacity →
      (v.pushBack x).capacity = max 1 (2 * v.capacity) ∧
      (v.emplaceBack ctor args).1.capacity = max 1 (2 * v.capacity)) ∧
    (v.size < v.capacity →
      (v.pushBack x).capacity = v.capacity ∧
      (v.emplaceBack ctor args).1.capacity = v.capacity) ∧
    (e.WF → e.size = 0 → e.capacity ≤ n → n < 2 ^ 64 → xs.length ≤ n →
      (push_all (e.reserve n) xs).capacity = n ∧
      (push_all (e.reserve n) xs).size = xs.length ∧
      (xs.length < n → (push_all (e.reserve n) xs).grow = push_all (e.reserve n) xs)) := by
  have hfit2 : v.size_ < 2 ^ 63 := hfit
  have hg := grow_capacity v hfit2
  refine ⟨?_, ?_, ?_⟩
  · intro heq
    have heq2 : v.size_ = v.data_.capacity_ := heq
    rw [if_pos heq2] at hg
    exact ⟨hg, hg⟩
  · intro hlt
    have hlt2 : v.size_ < v.data_.capacity_ := hlt
    have c : ¬ (v.size_ = v.data_.capacity_) := by omega
    rw [if_neg c] at hg
    exact ⟨hg, hg⟩
  · intro hwf hempty hcap hn hlen
    have hempty2 : e.size_ = 0 := hempty
    have hcap2 : e.data_.capacity_ ≤ n := hcap
    have h1 : (e.reserve n).data_.capacity_ = n := by
      rw [reserve_capacity]
      omega
    have h2 : (e.reserve n).size_ = 0 := by rw [reserve_size, hempty2]
    have h := push_all_reserved xs (e.reserve n) (by rw [h1, h2]; omega)
      (by rw [h1]; unfold SIZE_RANGE; exact hn)
    rw [h1, h2] at h
    refine ⟨h.1, by show (push_all (e.reserve n) xs).size_ = xs.length; omega, ?_⟩
    intro hlt
    exact grow_eq_self _ (by omega)

/-- Witness of C10: the full vector `[1, 2]`, the vector `[1, 2, 3]` with capacity
4, and `reserve(5)` on a new vector followed by two pushes. -/
theorem push_growth_policy_witness :
    (test_12.size ≤ test_12.capacity ∧ test_12.size < 2 ^ 63 ∧ test_12.size = test_12.capacity ∧
      (test_12.pushBack (Ref.outside 9)).capacity = max 1 (2 * test_12.capacity) ∧
      (test_12.emplaceBack id (Args.outside 9)).1.capacity = max 1 (2 * test_12.capacity)) ∧
    (test_123.size ≤ test_123.capacity ∧ test_123.size < 2 ^ 63 ∧
      test_123.size < test_123.capacity ∧
      (test_123.pushBack (Ref.outside 9)).capacity = test_123.capacity ∧
      (test_123.emplaceBack id (Args.outside 9)).1.capacity = test_123.capacity) ∧
    ((Vector.ctor_default : Vector Nat).WF ∧ (Vector.ctor_default : Vector Nat).size = 0 ∧
      (Vector.ctor_default : Vector Nat).capacity ≤ 5 ∧ 5 < 2 ^ 64 ∧
      ([Ref.outside 1, Ref.outside 2] : List (Ref Nat)).length ≤ 5 ∧
      (push_all ((Vector.ctor_default : Vector Nat).reserve 5) [Ref.outside 1, Ref.outside 2]).capacity = 5 ∧
      (push_all ((Vector.ctor_default : Vector Nat).reserve 5) [Ref.outside 1, Ref.outside 2]).size = ([Ref.outside 1, Ref.outside 2] : List (Ref Nat)).length ∧
      (([Ref.outside 1, Ref.outside 2] : List (Ref Nat)).length < 5 →
        (push_all ((Vector.ctor_default : Vector Nat).reserve 5) [Ref.outside 1, Ref.outside 2]).grow =
          push_all ((Vector.ctor_default : Vector Nat).reserve 5) [Ref.outside 1, Ref.outside 2])) :=
  ⟨⟨by decide, by decide, by decide,
     (push_growth_policy test_12 (Ref.outside 9) id (Args.outside 9) Vector.ctor_default 5 [Ref.outside 1, Ref.outside 2]
       (by decide) (by decide)).1 (by decide)⟩,
   ⟨by decide, by decide, by decide,
     (push_growth_policy test_123 (Ref.outside 9) id (Args.outside 9) Vector.ctor_default 5 [Ref.outside 1, Ref.outside 2]
       (by decide) (by decide)).2.1 (by decide)⟩,
   ⟨by decide, by decide, by decide, by decide, by decide,
     (push_growth_policy test_12 (Ref.outside 9) id (Args.outside 9) Vector.ctor_default 5 [Ref.outside 1, Ref.outside 2]
       (by decide) (by decide)).2.2 (by decide) (by decide) (by decide) (by decide)
       (by decide)⟩⟩

/-! ## Calls outside the precondition of `erase` and `popBack` -/

theorem erase_past_end {T : Type} (v : Vector T) (i : Nat) (hge : v.size_ ≤ i)
    (hi : i + 1 < 2 ^ 64) : (v.erase i).1 = v.popBack := by
  have e1 : size_add i 1 = i + 1 := size_add_one_eq _ (by unfold SIZE_RANGE; exact hi)
  have c : ¬ (i + 1 < v.size_) := by omega
  simp only [Vector.erase, e1, if_neg c]

/-- Counterexample to C11 as stated: `erase` at the position index 5 of `[1, 2, 3]`
returns normally and leaves `[1, 2]`; the vector is not left unchanged. -/
theorem erase_out_of_range_unchecked :
    ¬ (test_123.size ≤ 5 →
        (test_123.erase 5).1.size = test_123.size ∧
        (test_123.erase 5).1.toList = test_123.toList) := by
  decide

/-- C11 (amended): `erase` makes no range check and reports no failure.  For a
well-formed non-empty vector and a position index `i` with `size() <= i` (and
`i + 1` a `size_t` value) it returns normally and has removed the last element:
the result is that of `popBack()`, the size is `size() - 1`, the capacity and the
elements at the indices `[0, size() - 1)` are unchanged, and the returned
position is `begin() + i`. -/
theorem erase_out_of_range_pops {T : Type} (v : Vector T) (i : Nat) (hwf : v.WF)
    (hne : 0 < v.size) (hge : v.size ≤ i) (hi : i + 1 < 2 ^ 64) :
    (v.erase i).1 = v.popBack ∧
    (v.erase i).1.size = v.size - 1 ∧
    (v.erase i).1.capacity = v.capacity ∧
    (∀ j, j + 1 < v.size → (v.erase i).1.index j = v.index j) ∧
    (v.erase i).2 = (v.erase i).1.begin + i := by
  have h := erase_past_end v i hge hi
  refine ⟨h, ?_, ?_, ?_, rfl⟩
  · rw [h]
    exact popBack_size v hwf hne
  · rw [h]
    rfl
  · intro j hj
    rw [h]
    exact popBack_index v hwf hne j hj

/-- Witness of C11 (amended) on `[1, 2, 3]` and the position index 5. -/
theorem erase_out_of_range_pops_witness :
    test_123.WF ∧ 0 < test_123.size ∧ test_123.size ≤ 5 ∧ 5 + 1 < 2 ^ 64 ∧
    ((test_123.erase 5).1 = test_123.popBack ∧
     (test_123.erase 5).1.size = test_123.size - 1 ∧
     (test_123.erase 5).1.capacity = test_123.capacity ∧
     (∀ j, j + 1 < test_123.size → (test_123.erase 5).1.index j = test_123.index j) ∧
     (test_123.erase 5).2 = (test_123.erase 5).1.begin + 5) :=
  ⟨by decide, by decide, by decide, by decide,
    erase_out_of_range_pops test_123 5 (by decide) (by decide) (by decide) (by decide)⟩

/-- Counterexample to C12 as stated: `popBack` on a default-constructed vector
returns normally with size `2 ^ 64 - 1`, which is non-zero and exceeds the
capacity 0. -/
theorem popBack_empty_wraps :
    ¬ ((Vector.ctor_default : Vector Nat).popBack.size = 0 ∨
       (Vector.ctor_default : Vector Nat).popBack.size ≤
         (Vector.ctor_default : Vector Nat).popBack.capacity) ∧
    (Vector.ctor_default : Vector Nat).popBack.size = 2 ^ 64 - 1 := by
  decide

/-- C12 (amended): `popBack` makes no emptiness check and reports no failure;
`size() > 0` is an unchecked precondition.  For a well-formed vector with
`size() > 0` it returns with size `size() - 1`, which is at most the unchanged
capacity, and with the elements at `[0, size() - 1)` unchanged.  On a vector with
`size() == 0` it returns normally with the size wrapped to `2 ^ 64 - 1` and the
capacity unchanged. -/
theorem popBack_unchecked {T : Type} (v : Vector T) :
    (v.WF → 0 < v.size →
      v.popBack.size = v.size - 1 ∧ v.popBack.capacity = v.capacity ∧
      v.popBack.size ≤ v.popBack.capacity ∧
      ∀ j, j + 1 < v.size → v.popBack.index j = v.index j) ∧
    (v.size = 0 → v.popBack.size = 2 ^ 64 - 1 ∧ v.popBack.capacity = v.capacity) := by
  constructor
  · intro hwf hpos
    have hs := popBack_size v hwf hpos
    refine ⟨hs, rfl, ?_, popBack_index v hwf hpos⟩
    show v.popBack.size_ ≤ v.data_.capacity_
    have := hwf.2.2.1
    omega
  · intro hzero
    have hzero2 : v.size_ = 0 := hzero
    refine ⟨?_, rfl⟩
    show size_sub v.size_ 1 = 2 ^ 64 - 1
    rw [hzero2]
    decide

/-- Witness of C12 (amended): `popBack` on `[1, 2]`, and on a default-constructed
vector. -/
theorem popBack_unchecked_witness :
    (test_12.WF ∧ 0 < test_12.size ∧
      (test_12.popBack.size = test_12.size - 1 ∧ test_12.popBack.capacity = test_12.capacity ∧
       test_12.popBack.size ≤ test_12.popBack.capacity ∧
       ∀ j, j + 1 < test_12.size → test_12.popBack.index j = test_12.index j)) ∧
    ((Vector.ctor_default : Vector Nat).size = 0 ∧
      ((Vector.ctor_default : Vector Nat).popBack.size = 2 ^ 64 - 1 ∧
       (Vector.ctor_default : Vector Nat).popBack.capacity =
         (Vector.ctor_default : Vector Nat).capacity)) :=
  ⟨⟨by decide, by decide, (popBack_unchecked test_12).1 (by decide) (by decide)⟩,
   ⟨by decide, (popBack_unchecked (Vector.ctor_default : Vector Nat)).2 (by decide)⟩⟩

/-! ## The copy constructor -/

/-- The copy constructor of `TestCtors`: a copy of `Vector(5)` has size 5 and
capacity 5, and a copy of an empty vector has size 0 and capacity 0. -/
theorem test_ctors_copy :
    (Vector.ctor_copy (Vector.ctor_n 5 : Vector Nat)).size = 5 ∧
    (Vector.ctor_copy (Vector.ctor_n 5 : Vector Nat)).capacity = 5 ∧
    (Vector.ctor_copy (Vector.ctor_move (Vector.ctor_n 5 : Vector Nat)).2).size = 0 ∧
    (Vector.ctor_copy (Vector.ctor_move (Vector.ctor_n 5 : Vector Nat)).2).capacity = 0 := by
  decide

/-- C13: the copy constructed from `other` has size `other.size()`, capacity
exactly `other.size()` whatever `other.capacity()` is, and element `i` equal to
`other[i]` for every `i < other.size()`; `other` is read only.  In particular the
copy of an empty vector has capacity 0, even when that vector has spare capacity. -/
theorem ctor_copy_tight {T : Type} (other : Vector T) :
    (Vector.ctor_copy other).size = other.size ∧
    (Vector.ctor_copy other).capacity = other.size ∧
    (∀ i, i < other.size → (Vector.ctor_copy other).index i = other.index i) ∧
    (other.size = 0 → (Vector.ctor_copy other).capacity = 0) := by
  refine ⟨rfl, rfl, ?_, ?_⟩
  · intro i hi
    exact ctor_copy_index other i hi
  · intro h
    show other.size_ = 0
    exact h

/-- Witness of C13: the copy of `[1, 2, 3]` (capacity 4) has capacity 3, and the
copy of an empty vector with capacity 5 has capacity 0. -/
theorem ctor_copy_tight_witness :
    ((Vector.ctor_copy test_123).size = test_123.size ∧
     (Vector.ctor_copy test_123).capacity = test_123.size ∧
     test_123.capacity = 4 ∧
     (∀ i, i < test_123.size → (Vector.ctor_copy test_123).index i = test_123.index i)) ∧
    (((Vector.ctor_default : Vector Nat).reserve 5).size = 0 ∧
     ((Vector.ctor_default : Vector Nat).reserve 5).capacity = 5 ∧
     (Vector.ctor_copy ((Vector.ctor_default : Vector Nat).reserve 5)).capacity = 0) :=
  ⟨⟨(ctor_copy_tight test_123).1, (ctor_copy_tight test_123).2.1, by decide,
     (ctor_copy_tight test_123).2.2.1⟩,
   ⟨by decide, by decide,
     (ctor_copy_tight ((Vector.ctor_default : Vector Nat).reserve 5)).2.2.2 (by decide)⟩⟩

/-! ## The invariant `size_ <= capacity` -/

theorem size_sub_one_le (a : Nat) (h : 0 < a) : size_sub a 1 ≤ a - 1 := by
  unfold size_sub SIZE_RANGE
  omega

theorem ctor_n_Inv {T : Type} [Inhabited T] (n : Nat) : (Vector.ctor_n n : Vector T).Inv :=
  Nat.le_refl n

theorem copy_assign_Inv {T : Type} (v w : Vector T) : (v.copy_assign w).Inv := by
  show (v.copy_assign w).size_ ≤ (v.copy_assign w).data_.capacity_
  rw [copy_assign_size, copy_assign_capacity]
  split <;> omega

theorem reserve_Inv {T : Type} (v : Vector T) (n : Nat) (h : v.Inv) : (v.reserve n).Inv := by
  have h2 : v.size_ ≤ v.data_.capacity_ := h
  show (v.reserve n).size_ ≤ (v.reserve n).data_.capacity_
  rw [reserve_size, reserve_capacity]
  omega

theorem resize_Inv {T : Type} [Inhabited T] (v : Vector T) (n : Nat) : (v.resize n).Inv := by
  show (v.resize n).size_ ≤ (v.resize n).data_.capacity_
  rw [resize_size, resize_capacity]
  omega

theorem pushBack_Inv {T : Type} (v : Vector T) (x : Ref T) (h : v.Inv)
    (hfit : v.size_ < 2 ^ 63) : (v.pushBack x).Inv :=
  pushBack_room v x h hfit

theorem popBack_Inv {T : Type} (v : Vector T) (h : v.Inv) (hpos : 0 < v.size_) :
    v.popBack.Inv := by
  have h2 : v.size_ ≤ v.data_.capacity_ := h
  have h3 := size_sub_one_le v.size_ hpos
  show size_sub v.size_ 1 ≤ v.data_.capacity_
  omega

/-- C14: the invariant `size() <= capacity()` holds for the vectors made by the
default, sized, copy and move constructors, and is preserved by copy and move
assignment, `swap`, `reserve`, `resize`, `pushBack`, `emplaceBack` (on a vector
holding fewer than `2 ^ 63` elements, whatever the arguments refer to), `popBack`
(`size() > 0`), `insert` and `emplace` (position index in `[0, size()]`) and
`erase` (position index in `[0, size())`). -/
theorem invariant_preserved {T A : Type} [Inhabited T] (v w : Vector T) (n i : Nat)
    (x : Ref T) (ctor : A → T) (args : Args T A) :
    (Vector.ctor_default : Vector T).Inv ∧
    (Vector.ctor_n n : Vector T).Inv ∧
    (Vector.ctor_copy v).Inv ∧
    (v.Inv → (Vector.ctor_move v).1.Inv ∧ (Vector.ctor_move v).2.Inv) ∧
    (v.Inv → w.Inv →
      (v.copy_assign w).Inv ∧ (v.move_assign w).1.Inv ∧ (v.move_assign w).2.Inv ∧
      (v.swap w).1.Inv ∧ (v.swap w).2.Inv) ∧
    (v.Inv → (v.reserve n).Inv ∧ (v.resize n).Inv) ∧
    (v.Inv → v.size < 2 ^ 63 → (v.pushBack x).Inv ∧ (v.emplaceBack ctor args).1.Inv) ∧
    (v.Inv → 0 < v.size → v.popBack.Inv) ∧
    (v.Inv → v.size < 2 ^ 63 → i ≤ v.size →
      (v.insert i x).1.Inv ∧ (v.emplace i ctor args).1.Inv) ∧
    (v.Inv → i < v.size → (v.erase i).1.Inv) := by
  refine ⟨Nat.le_refl 0, ctor_n_Inv n, Nat.le_refl _, ?_, ?_, ?_, ?_, ?_, ?_, ?_⟩
  · intro hv
    exact ⟨hv, Nat.le_refl 0⟩
  · intro hv hw
    exact ⟨copy_assign_Inv v w, hw, hv, hw, hv⟩
  · intro hv
    exact ⟨reserve_Inv v n hv, resize_Inv v n⟩
  · intro hv hfit
    exact ⟨pushBack_Inv v x hv hfit, pushBack_Inv v x hv hfit⟩
  · intro hv hpos
    exact popBack_Inv v hv hpos
  · intro hv hfit _
    exact ⟨pushBack_Inv v x hv hfit, pushBack_Inv v x hv hfit⟩
  · intro hv hi
    have hi2 : i < v.size_ := hi
    exact popBack_Inv { v with data_ := { v.data_ with memory_ := _ } } hv (by
      show 0 < v.size_
      omega)

/-- Witness of C14 on `v = [1, 2, 3]` (capacity 4), `w = [1, 2]`, `n = 7`, `i = 1`. -/
theorem invariant_preserved_witness :
    test_123.Inv ∧ test_12.Inv ∧ test_123.size < 2 ^ 63 ∧ 0 < test_123.size ∧
    1 ≤ test_123.size ∧ 1 < test_123.size ∧
    ((Vector.ctor_move test_123).1.Inv ∧ (Vector.ctor_move test_123).2.Inv) ∧
    ((test_123.copy_assign test_12).Inv ∧ (test_123.move_assign test_12).1.Inv ∧
      (test_123.move_assign test_12).2.Inv ∧ (test_123.swap test_12).1.Inv ∧
      (test_123.swap test_12).2.Inv) ∧
    ((test_123.reserve 7).Inv ∧ (test_123.resize 7).Inv) ∧
    ((test_123.pushBack (Ref.outside 9)).Inv ∧ (test_123.emplaceBack id (Args.outside 9)).1.Inv) ∧
    test_123.popBack.Inv ∧
    ((test_123.insert 1 (Ref.outside 9)).1.Inv ∧ (test_123.emplace 1 id (Args.outside 9)).1.Inv) ∧
    (test_123.erase 1).1.Inv :=
  ⟨by decide, by decide, by decide, by decide, by decide, by decide,
   (invariant_preserved test_123 test_12 7 1 (Ref.outside 9) id (Args.outside 9)).2.2.2.1 (by decide),
   (invariant_preserved test_123 test_12 7 1 (Ref.outside 9) id (Args.outside 9)).2.2.2.2.1 (by decide) (by decide),
   (invariant_preserved test_123 test_12 7 1 (Ref.outside 9) id (Args.outside 9)).2.2.2.2.2.1 (by decide),
   (invariant_preserved test_123 test_12 7 1 (Ref.outside 9) id (Args.outside 9)).2.2.2.2.2.2.1 (by decide) (by decide),
   (invariant_preserved test_123 test_12 7 1 (Ref.outside 9) id (Args.outside 9)).2.2.2.2.2.2.2.1 (by decide) (by decide),
   (invariant_preserved test_123 test_12 7 1 (Ref.outside 9) id (Args.outside 9)).2.2.2.2.2.2.2.2.1 (by decide) (by decide)
     (by decide),
   (invariant_preserved test_123 test_12 7 1 (Ref.outside 9) id (Args.outside 9)).2.2.2.2.2.2.2.2.2 (by decide) (by decide)⟩

/-! ## Element operations counted by the instrumented element type -/

/-- The counters of `TestInit`, `TestPushBack` and `TestAssign`: `Vector<C>(3)`
constructs 3 elements and its destructor destroys 3; a push into an empty vector
constructs 1, the next push (a reallocation of 1 element) constructs 2 and
destroys 1; `v1(2) = v2(3)` constructs 3 and destroys 2; `v1(3) = v2(2)` assigns 2
and destroys 1. -/
theorem test_counters :
    Vector.ctor_n_counts 3 = { created := 3, assigned := 0, deleted := 0 } ∧
    (Vector.ctor_n 3 : Vector Nat).dtor_counts = { created := 0, assigned := 0, deleted := 3 } ∧
    (Vector.ctor_default : Vector Nat).pushBack_counts
      = { created := 1, assigned := 0, deleted := 0 } ∧
    ((Vector.ctor_default : Vector Nat).pushBack (Ref.outside 1)).pushBack_counts
      = { created := 2, assigned := 0, deleted := 1 } ∧
    (Vector.ctor_n 2 : Vector Nat).copy_assign_counts (Vector.ctor_n 3)
      = { created := 3, assigned := 0, deleted := 2 } ∧
    (Vector.ctor_n 3 : Vector Nat).copy_assign_counts (Vector.ctor_n 2)
      = { created := 0, assigned := 2, deleted := 1 } := by
  decide

/-- C15: with the instrumented element type, a `pushBack` on a vector holding `n`
elements (fewer than `2 ^ 63`) with `size() == capacity()` performs `n + 1`
constructions, `n` destructions and no assignment; with `size() < capacity()` it
performs 1 construction, no destruction and no assignment. -/
theorem pushBack_counts_spec {T : Type} (v : Vector T) (hfit : v.size < 2 ^ 63) :
    (v.size = v.capacity →
      v.pushBack_counts = { created := v.size + 1, assigned := 0, deleted := v.size }) ∧
    (v.size < v.capacity →
      v.pushBack_counts = { created := 1, assigned := 0, deleted := 0 }) := by
  have hfit2 : v.size_ < 2 ^ 63 := hfit
  constructor
  · intro heq
    have heq2 : v.size_ = v.data_.capacity_ := heq
    have hm := size_mul_two_eq v.size_ hfit2
    have c : ¬ ((if v.size_ = 0 then 1 else size_mul v.size_ 2) ≤ v.data_.capacity_) := by
      rw [hm]
      split <;> omega
    simp only [Vector.pushBack_counts, Vector.grow_counts, Vector.reserve_counts,
      RawMemory.capacity, if_pos heq2, if_neg c, Counts.add, Vector.size, Nat.zero_add,
      Nat.add_zero]
  · intro hlt
    have hlt2 : v.size_ < v.data_.capacity_ := hlt
    have c : ¬ (v.size_ = v.data_.capacity_) := by omega
    simp only [Vector.pushBack_counts, Vector.grow_counts, RawMemory.capacity, if_neg c,
      Counts.add, Nat.zero_add]

/-- Witness of C15: the full vector `[1, 2]` and the vector `[1, 2, 3]` of capacity 4. -/
theorem pushBack_counts_spec_witness :
    (test_12.size < 2 ^ 63 ∧ test_12.size = test_12.capacity ∧
      test_12.pushBack_counts
        = { created := test_12.size + 1, assigned := 0, deleted := test_12.size }) ∧
    (test_123.size < 2 ^ 63 ∧ test_123.size < test_123.capacity ∧
      test_123.pushBack_counts = { created := 1, assigned := 0, deleted := 0 }) :=
  ⟨⟨by decide, by decide, (pushBack_counts_spec test_12 (by decide)).1 (by decide)⟩,
   ⟨by decide, by decide, (pushBack_counts_spec test_123 (by decide)).2 (by decide)⟩⟩

theorem try_uninitialized_copy_n_ok {T : Type} (src : List (Option T)) (n : Nat) :
    ∀ (first : Nat) (dst : List (Option T)) (d : Nat),
      try_uninitialized_copy_n (fun x => Except.ok x) src first n dst d =
        Except.ok (uninitialized_copy_n src first n dst d) := by
  induction n with
  | zero => intro first dst d; rfl
  | succ n ih =>
    intro first dst d
    simp only [try_uninitialized_copy_n, uninitialized_copy_n]
    cases h : src.getD first none with
    | none => exact ih _ _ _
    | some x => exact ih _ _ _

theorem try_ctor_copy_ok {T : Type} (other : Vector T) :
    Vector.try_ctor_copy (fun _ => true) (fun x => Except.ok x) other =
      Except.ok (Vector.ctor_copy other) := by
  simp only [Vector.try_ctor_copy, if_true, try_uninitialized_copy_n_ok]
  rfl

/-- C17: on the path `other.size() > capacity()` of the copy assignment, when the
allocation or the copy construction of an element fails, the failure is passed
on to the caller and `*this` is exactly as it was before the call; when the copy
of `other` succeeds, the assignment ends without failure as the swap with that
copy, and with an allocator and a copy constructor that never fail it ends as
`copy_assign`. -/
theorem copy_assign_strong_safety {T : Type} (alloc : Nat → Bool)
    (copy : T → Except Failure T) (self other : Vector T)
    (hpath : other.size > self.capacity) :
    (∀ e, Vector.try_ctor_copy alloc copy other = Except.error e →
      Vector.try_copy_assign alloc copy self other = (self, some e)) ∧
    (alloc other.size = false →
      Vector.try_copy_assign alloc copy self other = (self, some Failure.OutOfMemory)) ∧
    (∀ e, (Vector.try_copy_assign alloc copy self other).2 = some e →
      (Vector.try_copy_assign alloc copy self other).1 = self) ∧
    (∀ tmp, Vector.try_ctor_copy alloc copy other = Except.ok tmp →
      Vector.try_copy_assign alloc copy self other = ((self.swap tmp).1, none)) ∧
    Vector.try_copy_assign (fun _ => true) (fun x => Except.ok x) self other =
      (self.copy_assign other, none) := by
  have hpath2 : other.size_ > self.data_.capacity := hpath
  refine ⟨?_, ?_, ?_, ?_, ?_⟩
  · intro e he
    simp only [Vector.try_copy_assign, if_pos hpath2, he]
  · intro ha
    have ha2 : alloc other.size_ = false := ha
    have he : Vector.try_ctor_copy alloc copy other = Except.error Failure.OutOfMemory := by
      simp [Vector.try_ctor_copy, ha2]
    simp only [Vector.try_copy_assign, if_pos hpath2, he]
  · intro e he
    simp only [Vector.try_copy_assign, if_pos hpath2] at he ⊢
    cases h : Vector.try_ctor_copy alloc copy other with
    | error e2 => rfl
    | ok tmp =>
      rw [h] at he
      exact absurd he (by simp)
  · intro tmp ht
    simp only [Vector.try_copy_assign, if_pos hpath2, ht]
  · simp only [Vector.try_copy_assign, if_pos hpath2, try_ctor_copy_ok, Vector.copy_assign]

/-- Witness of C17: `[1, 2] = [1, 2, 3]` with an allocator that refuses every
request, and with a copy constructor that fails on the element `3`. -/
theorem copy_assign_strong_safety_witness :
    test_123.size > test_12.capacity ∧
    Vector.try_copy_assign (fun _ => false) (fun x => Except.ok x) test_12 test_123 =
      (test_12, some Failure.OutOfMemory) ∧
    (Vector.try_copy_assign (fun _ => true)
        (fun x => if x = 3 then Except.error Failure.ElementCopy else Except.ok x)
        test_12 test_123).2 = some Failure.ElementCopy ∧
    (Vector.try_copy_assign (fun _ => true)
        (fun x => if x = 3 then Except.error Failure.ElementCopy else Except.ok x)
        test_12 test_123).1 = test_12 :=
  ⟨by decide,
   (copy_assign_strong_safety (fun _ => false) (fun x => Except.ok x) test_12 test_123
     (by decide)).2.1 rfl,
   by decide,
   (copy_assign_strong_safety (fun _ => true)
     (fun x => if x = 3 then Except.error Failure.ElementCopy else Except.ok x)
     test_12 test_123 (by decide)).2.2.1 Failure.ElementCopy (by decide)⟩

/-! ## Move assignment as an exchange -/

/-- C18: the move assignment `self = std::move(src)` exchanges the two states:
`self` ends with the prior size, capacity and block of `src`, `src` ends with
those of `self`; the blocks change owner slot for slot, with no element
constructed, assigned or destroyed; and a second move assignment in the opposite
direction restores both vectors. -/
theorem move_assign_exchanges {T : Type} (self src : Vector T) :
    (Vector.move_assign self src).1 = src ∧
    (Vector.move_assign self src).2 = self ∧
    (Vector.move_assign self src).1.size = src.size ∧
    (Vector.move_assign self src).1.capacity = src.capacity ∧
    (∀ i, (Vector.move_assign self src).1.index i = src.index i) ∧
    (Vector.move_assign self src).2.size = self.size ∧
    (Vector.move_assign self src).2.capacity = self.capacity ∧
    (∀ i, (Vector.move_assign self src).2.index i = self.index i) ∧
    (Vector.move_assign self src).1.data_.memory_ = src.data_.memory_ ∧
    (Vector.move_assign self src).2.data_.memory_ = self.data_.memory_ ∧
    Vector.move_assign_counts = { created := 0, assigned := 0, deleted := 0 } ∧
    (Vector.move_assign (Vector.move_assign self src).2 (Vector.move_assign self src).1).1 = src ∧
    (Vector.move_assign (Vector.move_assign self src).2 (Vector.move_assign self src).1).2 = self := by
  refine ⟨rfl, rfl, rfl, rfl, fun _ => rfl, rfl, rfl, fun _ => rfl, rfl, rfl, rfl, rfl, rfl⟩

/-! ## The size of the requested block -/

theorem allocate_bytes_exact (n s : Nat) (h : n * s < 2 ^ 64) :
    RawMemory.allocate_bytes n s = n * s := by
  unfold RawMemory.allocate_bytes size_mul SIZE_RANGE
  exact Nat.mod_eq_of_lt h

/-- C20 at the failing input: for `n = 2 ^ 63` slots of a type with
`sizeof(T) == 2`, `RawMemory(n)` asks `operator new` for `0` bytes, fewer than the
`2 ^ 64` bytes that `n` elements occupy, while `n` itself is a `size_t` value. -/
theorem allocate_bytes_wraps :
    2 ^ 63 < SIZE_RANGE ∧
    RawMemory.allocate_bytes (2 ^ 63) 2 = 0 ∧
    ¬ (RawMemory.allocate_bytes (2 ^ 63) 2 ≥ 2 ^ 63 * 2) := by
  decide

/-! ## Doubling from the empty vector -/

theorem grow_counts_full {T : Type} (w : Vector T) (hfull : w.size_ = w.data_.capacity_)
    (hfit : w.size_ < 2 ^ 63) : w.grow_counts.created = w.size_ := by
  have hm := size_mul_two_eq w.size_ hfit
  have c : ¬ ((if w.size_ = 0 then 1 else size_mul w.size_ 2) ≤ w.data_.capacity_) := by
    rw [hm]
    split <;> omega
  simp only [Vector.grow_counts, Vector.reserve_counts, RawMemory.capacity, if_pos hfull,
    if_neg c]

theorem grow_counts_room {T : Type} (w : Vector T) (h : w.size_ < w.data_.capacity_) :
    w.grow_counts.created = 0 := by
  have c : ¬ (w.size_ = w.data_.capacity_) := by omega
  simp only [Vector.grow_counts, RawMemory.capacity, if_neg c]

theorem push_all_doubling {T : Type} (xs : List (Ref T)) :
    ∀ (w : Vector T) (e : Nat), 1 ≤ w.size_ → w.data_.capacity_ = 2 ^ e → w.size_ ≤ 2 ^ e →
      2 ^ e < 2 * w.size_ → w.size_ + xs.length ≤ 2 ^ 63 →
      ∃ k, (push_all w xs).data_.capacity_ = 2 ^ k ∧
        (push_all w xs).size_ = w.size_ + xs.length ∧
        w.size_ + xs.length ≤ 2 ^ k ∧ 2 ^ k < 2 * (w.size_ + xs.length) ∧
        Vector.relocated w xs + 2 ^ e = 2 ^ k := by
  induction xs with
  | nil =>
    intro w e _ hcap hle hlt _
    exact ⟨e, hcap, rfl, by simpa using hle, by simpa using hlt, by simp [Vector.relocated]⟩
  | cons x xs ih =>
    intro w e hpos hcap hle hlt hfit
    simp only [List.length_cons] at hfit
    have hfit2 : w.size_ < 2 ^ 63 := by omega
    have hs := pushBack_size w x hfit2
    have hc := grow_capacity w hfit2
    rw [← pushBack_capacity w x] at hc
    have hpow : 2 ^ (e + 1) = 2 * 2 ^ e := by rw [pow_succ]; omega
    by_cases hfull : w.size_ = w.data_.capacity_
    · rw [if_pos hfull] at hc
      have hc2 : (w.pushBack x).data_.capacity_ = 2 ^ (e + 1) := by omega
      obtain ⟨k, h1, h2, h3, h4, h5⟩ := ih (w.pushBack x) (e + 1) (by omega) hc2 (by omega)
        (by omega) (by omega)
      have hr := grow_counts_full w hfull hfit2
      refine ⟨k, h1, ?_, ?_, ?_, ?_⟩
      · simp only [push_all, List.length_cons]; omega
      · simp only [List.length_cons]; omega
      · simp only [List.length_cons]; omega
      · simp only [Vector.relocated]; omega
    · rw [if_neg hfull] at hc
      have hc2 : (w.pushBack x).data_.capacity_ = 2 ^ e := by omega
      obtain ⟨k, h1, h2, h3, h4, h5⟩ := ih (w.pushBack x) e (by omega) hc2 (by omega)
        (by omega) (by omega)
      have hr := grow_counts_room w (by omega)
      refine ⟨k, h1, ?_, ?_, ?_, ?_⟩
      · simp only [push_all, List.length_cons]; omega
      · simp only [List.length_cons]; omega
      · simp only [List.length_cons]; omega
      · simp only [Vector.relocated]; omega

/-- C19: after `N >= 1` consecutive `pushBack` calls on a default-constructed vector
(`N <= 2 ^ 63`, whatever the arguments refer to; `emplaceBack` has the same growth
step), the capacity is the
smallest power of two that is at least `N`, and the number of existing elements
relocated over the `N` calls is that capacity minus 1, which is less than `2 * N`. -/
theorem doubling_from_empty {T : Type} (xs : List (Ref T)) (hpos : 1 ≤ xs.length)
    (hfit : xs.length ≤ 2 ^ 63) :
    (∃ e, (push_all Vector.ctor_default xs).capacity = 2 ^ e ∧ xs.length ≤ 2 ^ e ∧
      ∀ k, xs.length ≤ 2 ^ k → e ≤ k) ∧
    (push_all Vector.ctor_default xs).size = xs.length ∧
    Vector.relocated Vector.ctor_default xs = (push_all Vector.ctor_default xs).capacity - 1 ∧
    Vector.relocated Vector.ctor_default xs < 2 * xs.length := by
  cases xs with
  | nil => simp at hpos
  | cons x xs =>
    simp only [List.length_cons] at hfit hpos ⊢
    have hd : (Vector.ctor_default : Vector T).size_ < 2 ^ 63 := by
      show 0 < 2 ^ 63
      omega
    have hs : ((Vector.ctor_default : Vector T).pushBack x).size_ = 1 :=
      pushBack_size Vector.ctor_default x hd
    have hc : ((Vector.ctor_default : Vector T).pushBack x).data_.capacity_ = 2 ^ 0 := by
      rw [pushBack_capacity, grow_capacity _ hd]
      rfl
    have hr : (Vector.ctor_default : Vector T).grow_counts.created = 0 := rfl
    obtain ⟨k, h1, h2, h3, h4, h5⟩ := push_all_doubling xs
      ((Vector.ctor_default : Vector T).pushBack x) 0 (by omega) hc (by omega) (by omega)
      (by omega)
    rw [hs] at h2 h3 h4
    simp only [push_all, Vector.relocated, Vector.capacity, RawMemory.capacity, Vector.size,
      hr, Nat.zero_add]
    refine ⟨⟨k, h1, by omega, ?_⟩, by omega, by omega, by omega⟩
    intro j hj
    by_contra hlt
    have hle : j + 1 ≤ k := by omega
    have hmono : 2 ^ (j + 1) ≤ 2 ^ k := Nat.pow_le_pow_right (by omega) hle
    have hpow : 2 ^ (j + 1) = 2 * 2 ^ j := by rw [pow_succ]; omega
    omega

/-- Witness of C19: five pushes end with capacity 8 after 7 relocations. -/
theorem doubling_from_empty_witness :
    1 ≤ ([Ref.outside 1, Ref.outside 2, Ref.outside 3, Ref.outside 4, Ref.outside 5] : List (Ref Nat)).length ∧ ([Ref.outside 1, Ref.outside 2, Ref.outside 3, Ref.outside 4, Ref.outside 5] : List (Ref Nat)).length ≤ 2 ^ 63 ∧
    (push_all Vector.ctor_default ([Ref.outside 1, Ref.outside 2, Ref.outside 3, Ref.outside 4, Ref.outside 5] : List (Ref Nat))).capacity = 8 ∧
    Vector.relocated Vector.ctor_default ([Ref.outside 1, Ref.outside 2, Ref.outside 3, Ref.outside 4, Ref.outside 5] : List (Ref Nat)) = 7 ∧
    ((∃ e, (push_all Vector.ctor_default ([Ref.outside 1, Ref.outside 2, Ref.outside 3, Ref.outside 4, Ref.outside 5] : List (Ref Nat))).capacity = 2 ^ e ∧
        ([Ref.outside 1, Ref.outside 2, Ref.outside 3, Ref.outside 4, Ref.outside 5] : List (Ref Nat)).length ≤ 2 ^ e ∧
        ∀ k, ([Ref.outside 1, Ref.outside 2, Ref.outside 3, Ref.outside 4, Ref.outside 5] : List (Ref Nat)).length ≤ 2 ^ k → e ≤ k) ∧
     (push_all Vector.ctor_default ([Ref.outside 1, Ref.outside 2, Ref.outside 3, Ref.outside 4, Ref.outside 5] : List (Ref Nat))).size
       = ([Ref.outside 1, Ref.outside 2, Ref.outside 3, Ref.outside 4, Ref.outside 5] : List (Ref Nat)).length ∧
     Vector.relocated Vector.ctor_default ([Ref.outside 1, Ref.outside 2, Ref.outside 3, Ref.outside 4, Ref.outside 5] : List (Ref Nat)) =
       (push_all Vector.ctor_default ([Ref.outside 1, Ref.outside 2, Ref.outside 3, Ref.outside 4, Ref.outside 5] : List (Ref Nat))).capacity - 1 ∧
     Vector.relocated Vector.ctor_default ([Ref.outside 1, Ref.outside 2, Ref.outside 3, Ref.outside 4, Ref.outside 5] : List (Ref Nat))
       < 2 * ([Ref.outside 1, Ref.outside 2, Ref.outside 3, Ref.outside 4, Ref.outside 5] : List (Ref Nat)).length) :=
  ⟨by decide, by decide, by decide, by decide,
    doubling_from_empty ([Ref.outside 1, Ref.outside 2, Ref.outside 3, Ref.outside 4, Ref.outside 5] : List (Ref Nat)) (by decide) (by decide)⟩

end SimpleVector
